import Mathlib

/-!
# ObjectDetector: the detection overlay node and the algorithm option

A shallow embedding of `src/detection_display.cpp` (`DetectionDisplay::build`,
`processGroup`, `drawDetection`, `runDisplayWindow`) and of the `--algorithm`
branch of `main` in `src/main.cpp`, followed by the properties proved of them.

Conventions of the embedding:

* a C++ fragment evaluates to a `Res`: a value, a thrown exception, or undefined
  behaviour.  Only a thrown exception is intercepted by `catch (...)`;
* `int` is `Int` with the range `[INT_MIN, INT_MAX]` checked where the source
  computes (signed overflow and an out-of-range float conversion are undefined);
* `float` is IEEE-754 binary32 with round-to-nearest-even, every operation
  rounded to binary32; finite values are kept as `m * 2 ^ e` with integers `m`, `e`
  (the sign of zero is not kept: nothing in this program observes it);
* a `cv::Mat` is its two dimensions and the list of drawing calls applied to it;
* the calls into the window system and the pipeline are an effect trace, and the
  key returned by `cv::waitKey` is an argument.
-/

namespace ObjectDetector

/-! ## Outcomes -/

/-- Outcome of evaluating a C++ fragment. -/
inductive Res (α : Type) where
  /-- Normal completion with a value. -/
  | val (a : α)
  /-- A C++ exception was thrown. -/
  | thrown
  /-- Undefined behaviour was reached. -/
  | ub
  deriving DecidableEq, Repr

/-- Sequencing: the first abnormal outcome is the outcome of the whole. -/
def Res.bind {α β : Type} : Res α → (α → Res β) → Res β
  | .val a, f => f a
  | .thrown, _ => .thrown
  | .ub, _ => .ub

instance : Monad Res where
  pure := Res.val
  bind := Res.bind

/-- The statement `try { body } catch (...) { handler }`: the handler runs exactly
when the body throws. -/
def tryCatch {α : Type} (body : Res α) (handler : Unit → Res α) : Res α :=
  match body with
  | .thrown => handler ()
  | r => r

/-! ## Machine integers -/

/-- Smallest value of a 32-bit `int`. -/
def INT_MIN : Int := -2147483648

/-- Largest value of a 32-bit `int`. -/
def INT_MAX : Int := 2147483647

/-- The result of an `int` computation whose mathematical value is `v`: signed
overflow is undefined behaviour. -/
def intResult (v : Int) : Res Int :=
  if INT_MIN ≤ v ∧ v ≤ INT_MAX then .val v else .ub

/-! ## binary32 -/

/-- Number of binary digits of `n`, by halving at most `fuel` times. -/
def bitLenAux : Nat → Nat → Nat
  | 0, _ => 0
  | fuel + 1, n => if n = 0 then 0 else bitLenAux fuel (n / 2) + 1

/-- Number of binary digits of `n` (`0` for `0`). -/
def bitLen (n : Nat) : Nat := bitLenAux n n

/-- A `float`: a finite value `m * 2 ^ e`, an infinity, or a NaN. -/
inductive F32 where
  /-- The finite value `m * 2 ^ e`. -/
  | fin (m : Int) (e : Int)
  /-- Plus or minus infinity. -/
  | inf (negative : Bool)
  /-- Not a number. -/
  | nan
  deriving DecidableEq, Repr

namespace F32

/-- A sufficient condition for a finite pair to denote a binary32 value: at most 24
significant bits over an exponent between that of the smallest subnormal and that of
the last place of the largest finite value. -/
def valid : F32 → Bool
  | .fin m e => decide (m = 0) || (decide (m.natAbs < 2 ^ 24) && decide (-149 ≤ e) && decide (e ≤ 104))
  | _ => true

/-- Exponent of the unit in the last place of a binary32 value of the magnitude of
`m * 2 ^ e` (with `m` not zero): 23 below the exponent of the leading bit, and never
below that of the subnormals. -/
def quantumExp (m e : Int) : Int :=
  max (e + bitLen m.natAbs - 1) (-126) - 23

/-- The quotient `n / 2 ^ sh` rounded to nearest, ties to even. -/
def roundShift (n sh : Nat) : Nat :=
  let q := n / 2 ^ sh
  let r := n % 2 ^ sh
  let half := 2 ^ (sh - 1)
  if r < half then q else if half < r then q + 1 else if q % 2 = 0 then q else q + 1

/-- Rounding of the exact value `m * 2 ^ e` to binary32, to nearest, ties to even;
a result of magnitude `2 ^ 128` or more is an infinity. -/
def round (m e : Int) : F32 :=
  if m = 0 then .fin 0 0 else
  let qe := quantumExp m e
  if qe ≤ e then
    if 128 ≤ e + bitLen m.natAbs - 1 then .inf (decide (m < 0)) else .fin m e
  else
    let q := roundShift m.natAbs (qe - e).toNat
    if 128 ≤ qe + bitLen q - 1 then .inf (decide (m < 0))
    else .fin (if m < 0 then -(q : Int) else q) qe

/-- Conversion `int → float`. -/
def ofInt (i : Int) : F32 := round i 0

/-- The product `a * b` of two `float`s. -/
def mul : F32 → F32 → F32
  | .fin m₁ e₁, .fin m₂ e₂ => round (m₁ * m₂) (e₁ + e₂)
  | .inf s, .fin m _ => if m = 0 then .nan else .inf (xor s (decide (m < 0)))
  | .fin m _, .inf s => if m = 0 then .nan else .inf (xor (decide (m < 0)) s)
  | .inf s, .inf t => .inf (xor s t)
  | _, _ => .nan

/-- The comparison `a < b` of two `float`s (false as soon as one is a NaN). -/
def lt : F32 → F32 → Bool
  | .fin m₁ e₁, .fin m₂ e₂ =>
    decide (m₁ * 2 ^ (e₁ - min e₁ e₂).toNat < m₂ * 2 ^ (e₂ - min e₁ e₂).toNat)
  | .fin _ _, .inf s => !s
  | .inf s, .fin _ _ => s
  | .inf s, .inf t => s && !t
  | _, _ => false

/-- The comparison `a >= b` of two `float`s (false as soon as one is a NaN). -/
def ge : F32 → F32 → Bool
  | .fin m₁ e₁, .fin m₂ e₂ =>
    decide (m₂ * 2 ^ (e₂ - min e₁ e₂).toNat ≤ m₁ * 2 ^ (e₁ - min e₁ e₂).toNat)
  | .fin _ _, .inf s => s
  | .inf s, .fin _ _ => !s
  | .inf s, .inf t => !s || t
  | _, _ => false

/-- The value `m * 2 ^ e` with its fractional part discarded (toward zero). -/
def trunc (m e : Int) : Int :=
  if 0 ≤ e then m * 2 ^ e.toNat else Int.tdiv m (2 ^ (-e).toNat)

/-- Conversion `float → int`: truncation toward zero, undefined when the truncated
value is not an `int` (also for an infinity or a NaN). -/
def toInt : F32 → Res Int
  | .fin m e => intResult (trunc m e)
  | _ => .ub

end F32

/-! ## OpenCV values and calls -/

/-- A `cv::Scalar` built from three channel values (blue, green, red). -/
structure Scalar where
  v0 : Int
  v1 : Int
  v2 : Int
  deriving DecidableEq, Repr

/-- A `cv::Point`. -/
structure Point where
  x : Int
  y : Int
  deriving DecidableEq, Repr

/-- A `double` argument, as the finite value `m * 2 ^ e`. -/
structure Dbl where
  m : Int
  e : Int
  deriving DecidableEq, Repr

/-- A drawing call applied to an image. -/
inductive DrawOp where
  /-- The call `cv::rectangle(img, pt1, pt2, color, thickness)`. -/
  | rectangle (pt1 pt2 : Point) (color : Scalar) (thickness : Int)
  /-- The call `cv::putText(img, text, org, fontFace, fontScale, color)`. -/
  | putText (text : String) (org : Point) (fontFace : Int) (fontScale : Dbl) (color : Scalar)
  deriving DecidableEq, Repr

/-- A `cv::Mat`: its dimensions and the drawing calls applied to it so far. -/
structure Mat where
  cols : Int
  rows : Int
  drawn : List DrawOp
  deriving DecidableEq, Repr

/-- The constant `cv::FONT_HERSHEY_TRIPLEX`. -/
def FONT_HERSHEY_TRIPLEX : Int := 4

namespace cv

/-- The call `cv::rectangle`: one more drawing call on the image. -/
def rectangle (img : Mat) (pt1 pt2 : Point) (color : Scalar) (thickness : Int) : Mat :=
  { img with drawn := img.drawn ++ [DrawOp.rectangle pt1 pt2 color thickness] }

/-- The call `cv::putText`: one more drawing call on the image. -/
def putText (img : Mat) (text : String) (org : Point) (fontFace : Int) (fontScale : Dbl)
    (color : Scalar) : Mat :=
  { img with drawn := img.drawn ++ [DrawOp.putText text org fontFace fontScale color] }

end cv

/-- `std::vector::operator[]`: unchecked element access.  It never throws; an index
past the end is undefined behaviour. -/
def vectorIndex (v : List String) (i : Nat) : Res String :=
  match v[i]? with
  | some s => .val s
  | none => .ub

/-! ## Messages of the device library -/

/-- Modelled from the spec: the three spatial coordinates of a detection, in
millimetres.  The declaration (`dai::Point3f`) belongs to the device library, where the
fields are `float`s; the source casts each of them to `int`. -/
structure Point3f where
  x : F32
  y : F32
  z : F32
  deriving DecidableEq, Repr

/-- Modelled from the spec: a detection is a non-negative class index, a normalized
box and spatial coordinates.  The declaration (`dai::SpatialImgDetection`) belongs to
the device library, where `label` is a `uint32_t` and the box edges are `float`s; the
source indexes the label map with the first and multiplies an `int` by each of the
others. -/
structure SpatialImgDetection where
  label : Nat
  xmin : F32
  ymin : F32
  xmax : F32
  ymax : F32
  spatialCoordinates : Point3f
  deriving DecidableEq, Repr

/-- Modelled from the spec: the synchronized pair of a frame and a detection list that
`processGroup` receives.  The declaration (`dai::MessageGroup`) belongs to the device
library; each of the two named messages is present or absent (a null pointer from
`get`, whose dereference is undefined). -/
structure MessageGroup where
  images : Option Mat
  detections : Option (List SpatialImgDetection)
  deriving DecidableEq, Repr

/-- A `dai::Buffer`; `processGroup` only ever returns the null pointer. -/
structure Buffer where
  deriving DecidableEq, Repr

/-- A call that leaves the node: into the window system or into the pipeline. -/
inductive Effect where
  /-- The call `cv::imshow(winname, mat)`. -/
  | imshow (winname : String) (mat : Mat)
  /-- The call `cv::waitKey(delay)`. -/
  | waitKey (delay : Int)
  /-- The call `stopPipeline()`. -/
  | stopPipeline
  deriving DecidableEq, Repr

/-! ## The node -/

/-- The data members of `DetectionDisplay`. -/
structure DetectionDisplay where
  displayName_ : String
  labelMap_ : List String
  deriving DecidableEq, Repr

namespace DetectionDisplay

/-- `DetectionDisplay::build`: stores the window name and the label map. -/
def build (_self : DetectionDisplay) (displayName : String) (labelMap : List String) :
    DetectionDisplay :=
  { displayName_ := displayName, labelMap_ := labelMap }

/-- `DetectionDisplay::drawDetection`. -/
def drawDetection (self : DetectionDisplay) (frame : Mat) (detection : SpatialImgDetection) :
    Res Mat := do
  let colorGreen : Scalar := ⟨0, 255, 0⟩
  let colorWhite : Scalar := ⟨255, 255, 255⟩
  let colorRed : Scalar := ⟨0, 0, 255⟩
  let width := frame.cols
  let height := frame.rows
  let xmax ← F32.toInt (F32.mul (F32.ofInt width) detection.xmax)
  let xmin ← F32.toInt (F32.mul (F32.ofInt width) detection.xmin)
  let ymax ← F32.toInt (F32.mul (F32.ofInt height) detection.ymax)
  let ymin ← F32.toInt (F32.mul (F32.ofInt height) detection.ymin)
  let label ← tryCatch (vectorIndex self.labelMap_ detection.label)
    (fun _ => .val (toString detection.label))
  let tooClose := F32.lt detection.spatialCoordinates.z (F32.ofInt 300)
  let label := if tooClose then label ++ " [TOO CLOSE]" else label
  let rectColor := if tooClose then colorRed else colorGreen
  let frame := cv.rectangle frame ⟨xmax, ymax⟩ ⟨xmin, ymin⟩ rectColor 1
  let labelY ← intResult (ymin - 5)
  let frame := cv.putText frame label ⟨xmin, labelY⟩ FONT_HERSHEY_TRIPLEX ⟨1, -1⟩ colorWhite
  let xInt ← F32.toInt detection.spatialCoordinates.x
  let yInt ← F32.toInt detection.spatialCoordinates.y
  let zInt ← F32.toInt detection.spatialCoordinates.z
  let xStr := toString xInt
  let yStr := toString yInt
  let zStr := toString zInt
  let textX ← intResult (xmin + 3)
  let xLineY ← intResult (ymin + 15)
  let frame := cv.putText frame ("X: " ++ xStr ++ "mm") ⟨textX, xLineY⟩
    FONT_HERSHEY_TRIPLEX ⟨1, -1⟩ colorWhite
  let textX ← intResult (xmin + 3)
  let yLineY ← intResult (ymin + 30)
  let frame := cv.putText frame ("Y: " ++ yStr ++ "mm") ⟨textX, yLineY⟩
    FONT_HERSHEY_TRIPLEX ⟨1, -1⟩ colorWhite
  let textX ← intResult (xmin + 3)
  let zLineY ← intResult (ymin + 45)
  let frame := cv.putText frame ("Z (Depth): " ++ zStr ++ "mm") ⟨textX, zLineY⟩
    FONT_HERSHEY_TRIPLEX ⟨1, -1⟩ colorWhite
  return frame

/-- `DetectionDisplay::runDisplayWindow`; `key` is what `cv::waitKey(1)` returns. -/
def runDisplayWindow (self : DetectionDisplay) (frame : Mat) (key : Int) : List Effect :=
  [Effect.imshow self.displayName_ frame, Effect.waitKey 1] ++
    (if key = (Char.toNat 'q' : Int) then [Effect.stopPipeline] else [])

/-- `DetectionDisplay::processGroup`; `key` is what `cv::waitKey(1)` returns.  The
result is the returned pointer (always null) and the calls that left the node. -/
def processGroup (self : DetectionDisplay) (inGroup : MessageGroup) (key : Int) :
    Res (Option Buffer × List Effect) := do
  let baseFrame ← (match inGroup.images with
    | some m => Res.val m
    | none => Res.ub)
  let detections ← (match inGroup.detections with
    | some ds => Res.val ds
    | none => Res.ub)
  let cvFrame := baseFrame
  let cvFrame ← detections.foldlM (fun fr detection => self.drawDetection fr detection) cvFrame
  let effects := self.runDisplayWindow cvFrame key
  return (none, effects)

end DetectionDisplay

/-! ## The `--algorithm` option of `main` -/

/-- The enumerators of `dai::SpatialLocationCalculatorAlgorithm` that `main` names. -/
inductive SpatialLocationCalculatorAlgorithm where
  | AVERAGE
  | MIN
  | MAX
  | MODE
  | MEDIAN
  deriving DecidableEq, Repr

/-- The value of `result["algorithm"]`: the argument given on the command line, or
the declared default `"average"`. -/
def algorithmOption (given : Option String) : String :=
  given.getD "average"

/-- What `printf` writes for a `%s` argument: the characters before the first NUL. -/
def cStr (s : String) : String :=
  String.mk (s.data.takeWhile (fun c => c ≠ Char.ofNat 0))

/-- The branch of `main` that maps `algoArg` to the algorithm handed to
`setSpatialCalculationAlgorithm`, with what it prints. -/
def selectAlgorithm (algoArg : String) : SpatialLocationCalculatorAlgorithm × List String :=
  let algorithm := SpatialLocationCalculatorAlgorithm.AVERAGE
  if algoArg = "min" then
    (SpatialLocationCalculatorAlgorithm.MIN, [])
  else if algoArg = "max" then
    (SpatialLocationCalculatorAlgorithm.MAX, [])
  else if algoArg = "mode" then
    (SpatialLocationCalculatorAlgorithm.MODE, [])
  else if algoArg = "median" then
    (SpatialLocationCalculatorAlgorithm.MEDIAN, [])
  else if algoArg ≠ "mean" ∧ algoArg ≠ "average" then
    (algorithm, ["Unrecognized algorithm arg: '" ++ cStr algoArg ++ "' using average algorithm"])
  else
    (algorithm, [])

/-! ## Values used in the scenarios -/

/-- The `float` nearest to `0.1`. -/
def f0_1 : F32 := .fin 13421773 (-27)

/-- The `float` nearest to `0.4`. -/
def f0_4 : F32 := .fin 13421773 (-25)

/-- The `float` nearest to `0.7`. -/
def f0_7 : F32 := .fin 11744051 (-24)

/-- A frame of 640 by 480 pixels on which nothing is drawn yet. -/
def frame640x480 : Mat := { cols := 640, rows := 480, drawn := [] }

/-- The rational value of a finite `float`. -/
def F32.toRat : F32 → Option ℚ
  | .fin m e => some ((m : ℚ) * (2 : ℚ) ^ e)
  | _ => none

/-- A detection of class 0 with box `{0.1, 0.1, 0.4, 0.4}` at `x = 0`, `y = 0`, `z = 150`. -/
def detPerson : SpatialImgDetection :=
  { label := 0, xmin := f0_1, ymin := f0_1, xmax := f0_4, ymax := f0_4,
    spatialCoordinates := ⟨.fin 0 0, .fin 0 0, .fin 150 0⟩ }

/-- The same box at depth `z = 300` exactly. -/
def detAt300 : SpatialImgDetection :=
  { detPerson with spatialCoordinates := ⟨.fin 0 0, .fin 0 0, .fin 300 0⟩ }

/-- The same box at depth `z = 299.5`, with negative `x` and `y`. -/
def detFractional : SpatialImgDetection :=
  { detPerson with spatialCoordinates := ⟨.fin (-25) (-1), .fin (-1) (-1), .fin 599 (-1)⟩ }

/-- A node whose label map has one entry. -/
def nodePerson : DetectionDisplay := { displayName_ := "Display", labelMap_ := ["person"] }

/-- What `drawDetection` leaves on the blank 640 by 480 frame for `detPerson`. -/
def framePerson : Mat :=
  { cols := 640, rows := 480,
    drawn :=
      [DrawOp.rectangle ⟨256, 192⟩ ⟨64, 48⟩ ⟨0, 0, 255⟩ 1,
       DrawOp.putText "person [TOO CLOSE]" ⟨64, 43⟩ 4 ⟨1, -1⟩ ⟨255, 255, 255⟩,
       DrawOp.putText "X: 0mm" ⟨67, 63⟩ 4 ⟨1, -1⟩ ⟨255, 255, 255⟩,
       DrawOp.putText "Y: 0mm" ⟨67, 78⟩ 4 ⟨1, -1⟩ ⟨255, 255, 255⟩,
       DrawOp.putText "Z (Depth): 150mm" ⟨67, 93⟩ 4 ⟨1, -1⟩ ⟨255, 255, 255⟩] }

/-- What `drawDetection` leaves on the blank 640 by 480 frame for `detAt300`. -/
def frameAt300 : Mat :=
  { cols := 640, rows := 480,
    drawn :=
      [DrawOp.rectangle ⟨256, 192⟩ ⟨64, 48⟩ ⟨0, 255, 0⟩ 1,
       DrawOp.putText "person" ⟨64, 43⟩ 4 ⟨1, -1⟩ ⟨255, 255, 255⟩,
       DrawOp.putText "X: 0mm" ⟨67, 63⟩ 4 ⟨1, -1⟩ ⟨255, 255, 255⟩,
       DrawOp.putText "Y: 0mm" ⟨67, 78⟩ 4 ⟨1, -1⟩ ⟨255, 255, 255⟩,
       DrawOp.putText "Z (Depth): 300mm" ⟨67, 93⟩ 4 ⟨1, -1⟩ ⟨255, 255, 255⟩] }

/-- What `drawDetection` leaves on the blank 640 by 480 frame for `detFractional`. -/
def frameFractional : Mat :=
  { cols := 640, rows := 480,
    drawn :=
      [DrawOp.rectangle ⟨256, 192⟩ ⟨64, 48⟩ ⟨0, 0, 255⟩ 1,
       DrawOp.putText "person [TOO CLOSE]" ⟨64, 43⟩ 4 ⟨1, -1⟩ ⟨255, 255, 255⟩,
       DrawOp.putText "X: -12mm" ⟨67, 63⟩ 4 ⟨1, -1⟩ ⟨255, 255, 255⟩,
       DrawOp.putText "Y: 0mm" ⟨67, 78⟩ 4 ⟨1, -1⟩ ⟨255, 255, 255⟩,
       DrawOp.putText "Z (Depth): 299mm" ⟨67, 93⟩ 4 ⟨1, -1⟩ ⟨255, 255, 255⟩] }

/-- A detection with box `{0.25, 0.25, 0.75, 0.75}`. -/
def detQuarter : SpatialImgDetection :=
  { label := 0, xmin := .fin 1 (-2), ymin := .fin 1 (-2), xmax := .fin 3 (-2), ymax := .fin 3 (-2),
    spatialCoordinates := ⟨.fin 0 0, .fin 0 0, .fin 1000 0⟩ }

/-- What `drawDetection` leaves on the blank 640 by 480 frame for `detQuarter`. -/
def frameQuarter : Mat :=
  { cols := 640, rows := 480,
    drawn :=
      [DrawOp.rectangle ⟨480, 360⟩ ⟨160, 120⟩ ⟨0, 255, 0⟩ 1,
       DrawOp.putText "person" ⟨160, 115⟩ 4 ⟨1, -1⟩ ⟨255, 255, 255⟩,
       DrawOp.putText "X: 0mm" ⟨163, 135⟩ 4 ⟨1, -1⟩ ⟨255, 255, 255⟩,
       DrawOp.putText "Y: 0mm" ⟨163, 150⟩ 4 ⟨1, -1⟩ ⟨255, 255, 255⟩,
       DrawOp.putText "Z (Depth): 1000mm" ⟨163, 165⟩ 4 ⟨1, -1⟩ ⟨255, 255, 255⟩] }

/-- A detection with box `{-1/1024, -1/1024, 0.5, 0.5}`. -/
def detSlightlyNegative : SpatialImgDetection :=
  { label := 0, xmin := .fin (-1) (-10), ymin := .fin (-1) (-10), xmax := .fin 1 (-1),
    ymax := .fin 1 (-1), spatialCoordinates := ⟨.fin 0 0, .fin 0 0, .fin 1000 0⟩ }

/-- What `drawDetection` leaves on the blank 640 by 480 frame for `detSlightlyNegative`. -/
def frameSlightlyNegative : Mat :=
  { cols := 640, rows := 480,
    drawn :=
      [DrawOp.rectangle ⟨320, 240⟩ ⟨0, 0⟩ ⟨0, 255, 0⟩ 1,
       DrawOp.putText "person" ⟨0, -5⟩ 4 ⟨1, -1⟩ ⟨255, 255, 255⟩,
       DrawOp.putText "X: 0mm" ⟨3, 15⟩ 4 ⟨1, -1⟩ ⟨255, 255, 255⟩,
       DrawOp.putText "Y: 0mm" ⟨3, 30⟩ 4 ⟨1, -1⟩ ⟨255, 255, 255⟩,
       DrawOp.putText "Z (Depth): 1000mm" ⟨3, 45⟩ 4 ⟨1, -1⟩ ⟨255, 255, 255⟩] }

/-- The drawing calls `drawDetection` issues for one detection on a frame of the given
dimensions (none when the call does not complete). -/
def issuedOps (self : DetectionDisplay) (cols rows : Int) (d : SpatialImgDetection) :
    List DrawOp :=
  match self.drawDetection { cols := cols, rows := rows, drawn := [] } d with
  | .val m => m.drawn
  | _ => []

/-- The node as `main` builds it when the network reports no class names. -/
def nodeNoLabels : DetectionDisplay := { displayName_ := "Display", labelMap_ := [] }

/-- The detection `detPerson` with class index 7. -/
def detLabel7 : SpatialImgDetection := { detPerson with label := 7 }

open DetectionDisplay

/-! ## Outcomes and machine integers -/

/-- A sequence completes exactly when both of its parts do. -/
theorem Res.bind_eq_val {α β : Type} (r : Res α) (f : α → Res β) (b : β) :
    (r >>= f) = Res.val b ↔ ∃ a, r = Res.val a ∧ f a = Res.val b := by
  cases r <;> simp [Bind.bind, Res.bind]

theorem Res.pure_eq_val {α : Type} (a b : α) : (pure a : Res α) = Res.val b ↔ a = b := by
  simp [Pure.pure]

theorem Res.bind_ne_thrown {α β : Type} (r : Res α) (f : α → Res β) (hr : r ≠ Res.thrown)
    (hf : ∀ a, f a ≠ Res.thrown) : (r >>= f) ≠ Res.thrown := by
  cases r with
  | val a => exact hf a
  | thrown => exact absurd rfl hr
  | ub => simp [Bind.bind, Res.bind]

/-- An `int` computation completes exactly when its value is in range. -/
theorem intResult_eq_val (v w : Int) :
    intResult v = Res.val w ↔ (INT_MIN ≤ v ∧ v ≤ INT_MAX) ∧ v = w := by
  unfold intResult
  split <;> simp_all

theorem intResult_ne_thrown (v : Int) : intResult v ≠ Res.thrown := by
  unfold intResult
  split <;> simp

/-- Unchecked access completes exactly on an index inside the vector. -/
theorem vectorIndex_eq_val (v : List String) (i : Nat) (s : String) :
    vectorIndex v i = Res.val s ↔ v[i]? = some s := by
  unfold vectorIndex
  cases v[i]? <;> simp

/-- Unchecked access never throws. -/
theorem vectorIndex_ne_thrown (v : List String) (i : Nat) : vectorIndex v i ≠ Res.thrown := by
  unfold vectorIndex
  split <;> simp

/-- Around an unchecked access the handler of a `try` is dead code. -/
theorem tryCatch_vectorIndex (v : List String) (i : Nat) (handler : Unit → Res String) :
    tryCatch (vectorIndex v i) handler = vectorIndex v i := by
  have h := vectorIndex_ne_thrown v i
  unfold tryCatch
  split
  · contradiction
  · rfl

/-! ## binary32 -/

/-- A number below `2 ^ k` has at most `k` binary digits. -/
theorem bitLenAux_le (fuel : Nat) : ∀ (n k : Nat), n < 2 ^ k → bitLenAux fuel n ≤ k := by
  induction fuel with
  | zero => intro n k _; simp [bitLenAux]
  | succ fuel ih =>
    intro n k hn
    unfold bitLenAux
    split
    · exact Nat.zero_le k
    · rename_i hn0
      cases k with
      | zero => simp at hn; exact absurd hn hn0
      | succ k =>
        have : n / 2 < 2 ^ k := by
          rw [Nat.div_lt_iff_lt_mul (by norm_num)]
          rw [pow_succ] at hn
          exact hn
        exact Nat.succ_le_succ (ih _ _ this)

/-- Rounding leaves a binary32 value unchanged. -/
theorem F32.round_of_valid (m e : Int) (hm : m.natAbs < 2 ^ 24) (he : -149 ≤ e)
    (he' : e ≤ 104) (h0 : m ≠ 0) : F32.round m e = F32.fin m e := by
  have hb : bitLen m.natAbs ≤ 24 := bitLenAux_le _ _ _ hm
  have hq : F32.quantumExp m e ≤ e := by
    unfold F32.quantumExp
    rcases le_total (e + (bitLen m.natAbs : Int) - 1) (-126) with h | h
    · rw [max_eq_right h]; omega
    · rw [max_eq_left h]; omega
  unfold F32.round
  simp only [h0, if_false]
  rw [if_pos hq, if_neg (by omega)]

/-- The conversion `int → float` is exact below `2 ^ 24` in magnitude. -/
theorem F32.ofInt_exact (i : Int) (hi : i.natAbs < 2 ^ 24) :
    ∃ m e, F32.ofInt i = F32.fin m e ∧ F32.trunc m e = i := by
  by_cases h0 : i = 0
  · subst h0
    exact ⟨0, 0, by decide, by decide⟩
  · exact ⟨i, 0, F32.round_of_valid i 0 hi (by norm_num) (by norm_num) h0, by simp [F32.trunc]⟩

/-- Evaluations of the binary32 operations: ties to even, overflow to infinity, gradual
underflow, two products whose rounding crosses an integer (so that the converted
product exceeds the truncated exact product by one), truncation toward zero of a
negative product, and the limits of the conversion to `int`. -/
theorem F32.round_examples :
    F32.ofInt 16777217 = F32.fin 8388608 1 ∧
    F32.ofInt 16777219 = F32.fin 8388610 1 ∧
    F32.ofInt (-16777217) = F32.fin (-8388608) 1 ∧
    F32.mul (F32.fin 1 127) (F32.fin 1 1) = F32.inf false ∧
    F32.mul (F32.fin 16777215 104) (F32.fin 16777217 (-24)) = F32.inf false ∧
    F32.mul (F32.fin 16777215 104) (F32.fin 16777215 (-24)) = F32.fin 16777214 104 ∧
    F32.mul (F32.fin 1 (-149)) (F32.fin 1 (-1)) = F32.fin 0 (-149) ∧
    F32.mul (F32.fin 3 (-149)) (F32.fin 1 (-1)) = F32.fin 2 (-149) ∧
    F32.mul (F32.ofInt 10) f0_7 = F32.fin 14680064 (-21) ∧
    F32.toInt (F32.mul (F32.ofInt 10) f0_7) = Res.val 7 ∧
    F32.trunc (10 * 11744051) (-24) = 6 ∧
    F32.toInt (F32.mul (F32.ofInt 640) (F32.fin 13447987 (-24))) = Res.val 513 ∧
    F32.trunc (640 * 13447987) (-24) = 512 ∧
    F32.toInt (F32.mul (F32.ofInt 640) (F32.fin (-257) (-10))) = Res.val (-160) ∧
    F32.toInt (F32.fin 1 31) = Res.ub ∧
    F32.toInt (F32.fin (-1) 31) = Res.val (-2147483648) := by
  decide

theorem F32.ofInt_300 : F32.ofInt 300 = F32.fin 300 0 := by decide

/-- The function `trunc` is truncation toward zero of the rational value: the floor
of a non-negative value and the ceiling of a negative one. -/
theorem F32.trunc_toward_zero (m e : Int) :
    F32.trunc m e =
      if 0 ≤ m then ⌊(m : ℚ) * (2 : ℚ) ^ e⌋ else ⌈(m : ℚ) * (2 : ℚ) ^ e⌉ := by
  unfold F32.trunc
  rcases le_or_lt 0 e with he | he
  · obtain ⟨k, rfl⟩ := Int.eq_ofNat_of_zero_le he
    have hv : (m : ℚ) * (2 : ℚ) ^ (k : Int) = ((m * 2 ^ k : Int) : ℚ) := by
      rw [zpow_natCast]; push_cast; ring
    rw [hv, if_pos he, Int.toNat_natCast]
    split
    · exact (Int.floor_intCast _).symm
    · exact (Int.ceil_intCast _).symm
  · obtain ⟨k, hk⟩ := Int.eq_ofNat_of_zero_le (show 0 ≤ -e by omega)
    have he' : e = -(k : Int) := by omega
    subst he'
    have hv : (m : ℚ) * (2 : ℚ) ^ (-(k : Int)) = (m : ℚ) / ((2 ^ k : Nat) : ℚ) := by
      rw [zpow_neg, zpow_natCast]; push_cast; ring
    have hp : (0 : Int) ≤ ((2 ^ k : Nat) : Int) := by positivity
    have hcast : ((2 : Int) ^ k) = ((2 ^ k : Nat) : Int) := by push_cast; rfl
    rw [hv, if_neg (not_le.mpr he), neg_neg, Int.toNat_natCast, hcast]
    split
    · rename_i hm
      rw [Int.tdiv_eq_ediv hm hp, Rat.floor_intCast_div_natCast]
    · rename_i hm
      have hm' : 0 ≤ -m := by omega
      have h1 : Int.tdiv m ((2 ^ k : Nat) : Int) = -(Int.tdiv (-m) ((2 ^ k : Nat) : Int)) := by
        rw [Int.neg_tdiv, neg_neg]
      have h2 := Rat.floor_intCast_div_natCast (-m) (2 ^ k)
      have h3 : ⌈(m : ℚ) / ((2 ^ k : Nat) : ℚ)⌉
          = -⌊((-m : Int) : ℚ) / ((2 ^ k : Nat) : ℚ)⌋ := by
        rw [Int.cast_neg, neg_div, Int.floor_neg, neg_neg]
      rw [h1, Int.tdiv_eq_ediv hm' hp, h3, h2]

/-- The comparison `lt` on finite values is the order of the rational values. -/
theorem F32.lt_fin_iff (m₁ e₁ m₂ e₂ : Int) :
    F32.lt (F32.fin m₁ e₁) (F32.fin m₂ e₂) = true ↔
      (m₁ : ℚ) * (2 : ℚ) ^ e₁ < (m₂ : ℚ) * (2 : ℚ) ^ e₂ := by
  have key : ∀ (m e k : Int), k ≤ e →
      ((m * 2 ^ (e - k).toNat : Int) : ℚ) = (m : ℚ) * (2 : ℚ) ^ e * (2 : ℚ) ^ (-k) := by
    intro m e k hk
    obtain ⟨j, hj⟩ := Int.eq_ofNat_of_zero_le (show 0 ≤ e - k by omega)
    have he : e = (j : Int) + k := by omega
    rw [hj, Int.toNat_natCast, he, zpow_add₀ (by norm_num : (2 : ℚ) ≠ 0), zpow_natCast,
      mul_assoc, mul_assoc, ← zpow_add₀ (by norm_num : (2 : ℚ) ≠ 0)]
    simp
  have hpos : (0 : ℚ) < (2 : ℚ) ^ (-(min e₁ e₂)) := by positivity
  simp only [F32.lt, decide_eq_true_eq]
  rw [← Int.cast_lt (R := ℚ), key m₁ e₁ _ (min_le_left _ _), key m₂ e₂ _ (min_le_right _ _)]
  exact mul_lt_mul_right hpos

/-- The scenario constants are binary32 values within half a unit in the last place of
the decimals they stand for. -/
theorem scenario_floats_nearest :
    (F32.valid f0_1 = true ∧ ∃ q, f0_1.toRat = some q ∧ |q - 1 / 10| < 1 / 2 ^ 28) ∧
    (F32.valid f0_4 = true ∧ ∃ q, f0_4.toRat = some q ∧ |q - 4 / 10| < 1 / 2 ^ 26) ∧
    (F32.valid f0_7 = true ∧ ∃ q, f0_7.toRat = some q ∧ |q - 7 / 10| < 1 / 2 ^ 25) := by
  refine ⟨⟨by decide, _, rfl, ?_⟩, ⟨by decide, _, rfl, ?_⟩, ⟨by decide, _, rfl, ?_⟩⟩ <;>
    norm_num [abs_lt]

theorem F32.ge_eq_not_lt_fin (m₁ e₁ m₂ e₂ : Int) :
    F32.ge (F32.fin m₁ e₁) (F32.fin m₂ e₂) = !F32.lt (F32.fin m₁ e₁) (F32.fin m₂ e₂) := by
  simp only [F32.ge, F32.lt, ← decide_not, not_lt]

theorem F32.lt_false_of_ge (a b : F32) (h : F32.ge a b = true) : F32.lt a b = false := by
  cases a <;> cases b <;> simp_all [F32.ge, F32.lt]
  rename_i s t
  cases s <;> simp_all

theorem F32.toInt_range (f : F32) (n : Int) (h : F32.toInt f = Res.val n) :
    INT_MIN ≤ n ∧ n ≤ INT_MAX := by
  cases f with
  | fin m e =>
    simp only [F32.toInt, intResult_eq_val] at h
    obtain ⟨hr, rfl⟩ := h
    exact hr
  | inf s => simp [F32.toInt] at h
  | nan => simp [F32.toInt] at h

theorem F32.toInt_ne_thrown (f : F32) : F32.toInt f ≠ Res.thrown := by
  cases f <;> simp [F32.toInt, intResult_ne_thrown]

/-- A conversion to `int` that completes converts a finite value, by truncation. -/
theorem F32.toInt_eq_val_fin (f : F32) (n : Int) (h : F32.toInt f = Res.val n) :
    ∃ m e, f = F32.fin m e ∧ n = F32.trunc m e := by
  cases f with
  | fin m e =>
    simp only [F32.toInt, intResult_eq_val] at h
    exact ⟨m, e, rfl, h.2.symm⟩
  | inf s => simp [F32.toInt] at h
  | nan => simp [F32.toInt] at h

theorem F32.tdiv_lt_iff (m p b : Int) (hp : 0 < p) (hb : 0 < b) :
    Int.tdiv m p < b ↔ m < b * p := by
  rcases le_or_lt 0 m with hm | hm
  · rw [Int.tdiv_eq_ediv hm hp.le]
    exact Int.ediv_lt_iff_lt_mul hp
  · have h1 : 0 ≤ Int.tdiv (-m) p := Int.tdiv_nonneg (by omega) hp.le
    rw [Int.neg_tdiv] at h1
    have h2 : 0 < b * p := Int.mul_pos hb hp
    constructor
    · intro _; omega
    · intro _; omega

/-- A finite depth is below 300 exactly when its truncation is. -/
theorem F32.lt_300_iff_trunc (m e : Int) :
    F32.lt (F32.fin m e) (F32.ofInt 300) = true ↔ F32.trunc m e < 300 := by
  rw [F32.ofInt_300]
  unfold F32.lt F32.trunc
  rcases le_or_lt 0 e with he | he
  · simp [he, min_eq_right he]
  · have hmin : min e 0 = e := min_eq_left he.le
    have hp : (0 : Int) < 2 ^ (-e).toNat := by positivity
    simp only [hmin, sub_self, Int.toNat_zero, pow_zero, mul_one, zero_sub, decide_eq_true_eq,
      not_le.mpr he, if_false]
    exact (F32.tdiv_lt_iff m _ 300 hp (by norm_num)).symm

theorem F32.lt_300_iff_toInt (z : F32) (n : Int) (h : F32.toInt z = Res.val n) :
    F32.lt z (F32.ofInt 300) = true ↔ n < 300 := by
  obtain ⟨m, e, rfl, rfl⟩ := F32.toInt_eq_val_fin z n h
  exact F32.lt_300_iff_trunc m e

theorem F32.lt_or_ge_300_of_toInt (z : F32) (n : Int) (h : F32.toInt z = Res.val n) :
    F32.lt z (F32.ofInt 300) = true ∨ F32.ge z (F32.ofInt 300) = true := by
  obtain ⟨m, e, rfl, rfl⟩ := F32.toInt_eq_val_fin z n h
  rw [F32.ofInt_300, F32.ge_eq_not_lt_fin]
  cases F32.lt (F32.fin m e) (F32.fin 300 0) <;> simp

/-- A positive number has a leading binary digit. -/
theorem bitLenAux_spec (fuel : Nat) :
    ∀ n : Nat, n ≤ fuel → 0 < n → 1 ≤ bitLenAux fuel n ∧ 2 ^ (bitLenAux fuel n - 1) ≤ n := by
  induction fuel with
  | zero => intro n h0 hn; omega
  | succ fuel ih =>
    intro n hle hn
    have hn0 : n ≠ 0 := by omega
    unfold bitLenAux
    rw [if_neg hn0]
    refine ⟨by omega, ?_⟩
    simp only [Nat.add_sub_cancel]
    rcases Nat.eq_zero_or_pos (n / 2) with hz | hp
    · have hb : bitLenAux fuel (n / 2) = 0 := by
        rw [hz]
        cases fuel <;> simp [bitLenAux]
      rw [hb]
      simpa using hn
    · obtain ⟨h1, h2⟩ := ih (n / 2) (by omega) hp
      have h3 : 2 ^ bitLenAux fuel (n / 2) = 2 * 2 ^ (bitLenAux fuel (n / 2) - 1) := by
        conv_lhs => rw [show bitLenAux fuel (n / 2) = (bitLenAux fuel (n / 2) - 1) + 1 by omega]
        rw [pow_succ, mul_comm]
      rw [h3]
      omega

theorem bitLen_spec (n : Nat) (hn : 0 < n) : 1 ≤ bitLen n ∧ 2 ^ (bitLen n - 1) ≤ n :=
  bitLenAux_spec n n (le_refl n) hn

/-- Rounding a quotient never goes below its floor. -/
theorem F32.roundShift_ge (n sh : Nat) : n / 2 ^ sh ≤ F32.roundShift n sh := by
  unfold F32.roundShift
  simp only
  split_ifs <;> omega

/-- The two shapes of a finite rounding result: the value itself when it needs no
rounding, or the rounded quotient at the exponent of the last place. -/
theorem F32.round_cases (n e m' e' : Int) (hn : n ≠ 0) (hr : F32.round n e = F32.fin m' e') :
    (F32.quantumExp n e ≤ e ∧ m' = n ∧ e' = e) ∨
    (e < F32.quantumExp n e ∧ e' = F32.quantumExp n e ∧
      m' = (if n < 0 then -(F32.roundShift n.natAbs (F32.quantumExp n e - e).toNat : Int)
        else (F32.roundShift n.natAbs (F32.quantumExp n e - e).toNat : Int))) := by
  unfold F32.round at hr
  simp only [hn, if_false] at hr
  by_cases hq : F32.quantumExp n e ≤ e
  · rw [if_pos hq] at hr
    left
    by_cases hov : 128 ≤ e + (bitLen n.natAbs : Int) - 1
    · rw [if_pos hov] at hr
      exact absurd hr (by simp)
    · rw [if_neg hov] at hr
      simp only [F32.fin.injEq] at hr
      exact ⟨hq, hr.1.symm, hr.2.symm⟩
  · rw [if_neg hq] at hr
    right
    by_cases hov : 128 ≤ F32.quantumExp n e +
        (bitLen (F32.roundShift n.natAbs (F32.quantumExp n e - e).toNat) : Int) - 1
    · rw [if_pos hov] at hr
      exact absurd hr (by simp)
    · rw [if_neg hov] at hr
      simp only [F32.fin.injEq] at hr
      exact ⟨not_le.mp hq, hr.2.symm, hr.1.symm⟩

theorem F32.trunc_nonpos (m e : Int) (hm : m ≤ 0) : F32.trunc m e ≤ 0 := by
  unfold F32.trunc
  split
  · have hp : (0 : Int) ≤ 2 ^ e.toNat := by positivity
    exact Int.mul_nonpos_of_nonpos_of_nonneg hm hp
  · have hp : (0 : Int) ≤ 2 ^ (-e).toNat := by positivity
    have h1 : 0 ≤ Int.tdiv (-m) (2 ^ (-e).toNat) := Int.tdiv_nonneg (by omega) hp
    rw [Int.neg_tdiv] at h1
    omega

theorem F32.round_nonpos (n e m' e' : Int) (hn : n ≤ 0) (hr : F32.round n e = F32.fin m' e') :
    m' ≤ 0 := by
  by_cases h0 : n = 0
  · subst h0
    simp only [F32.round, if_true, F32.fin.injEq] at hr
    omega
  · rcases F32.round_cases n e m' e' h0 hr with ⟨-, h, -⟩ | ⟨-, -, h⟩
    · omega
    · rw [if_pos (by omega)] at h
      omega

theorem F32.round_nonneg (n e m' e' : Int) (hn : 0 ≤ n) (hr : F32.round n e = F32.fin m' e') :
    0 ≤ m' := by
  by_cases h0 : n = 0
  · subst h0
    simp only [F32.round, if_true, F32.fin.injEq] at hr
    omega
  · rcases F32.round_cases n e m' e' h0 hr with ⟨-, h, -⟩ | ⟨-, -, h⟩
    · omega
    · rw [if_neg (by omega)] at h
      omega

theorem F32.trunc_of_nonneg (m e : Int) (hm : 0 ≤ m) :
    F32.trunc m e = if 0 ≤ e then m * 2 ^ e.toNat else m / 2 ^ (-e).toNat := by
  unfold F32.trunc
  split
  · rfl
  · exact Int.tdiv_eq_ediv hm (by positivity)

/-- Rounding a positive value does not take its integer part below an integer `W`
smaller than `2 ^ 24` that it reaches. -/
theorem F32.round_trunc_ge (W n e m' e' : Int) (hW : W < 2 ^ 24) (hn : 0 < n)
    (hv : W ≤ F32.trunc n e) (hr : F32.round n e = F32.fin m' e') : W ≤ F32.trunc m' e' := by
  rcases F32.round_cases n e m' e' (by omega) hr with ⟨-, rfl, rfl⟩ | ⟨hlt, rfl, rfl⟩
  · exact hv
  · rw [if_neg (by omega)]
    have hN : ((n.natAbs : Nat) : Int) = n := Int.natAbs_of_nonneg hn.le
    have hNpos : 0 < n.natAbs := by omega
    have hQ := F32.roundShift_ge n.natAbs (F32.quantumExp n e - e).toNat
    have hQ' : ((n.natAbs / 2 ^ (F32.quantumExp n e - e).toNat : Nat) : Int) ≤
        (F32.roundShift n.natAbs (F32.quantumExp n e - e).toNat : Int) := by exact_mod_cast hQ
    rw [Int.natCast_div, hN] at hQ'
    push_cast at hQ'
    rw [F32.trunc_of_nonneg _ _ (by positivity)]
    rw [F32.trunc_of_nonneg _ _ hn.le] at hv
    generalize F32.roundShift n.natAbs (F32.quantumExp n e - e).toNat = Q at hQ hQ' ⊢
    rcases lt_trichotomy (F32.quantumExp n e) 0 with hneg | hzero | hpos
    · -- both exponents negative
      have he : ¬ 0 ≤ e := by omega
      rw [if_neg he] at hv
      rw [if_neg (by omega)]
      have hsplit : (-e).toNat = (F32.quantumExp n e - e).toNat + (-F32.quantumExp n e).toNat := by
        omega
      have key : n.natAbs / 2 ^ (-e).toNat ≤ Q / 2 ^ (-F32.quantumExp n e).toNat := by
        rw [hsplit, pow_add, ← Nat.div_div_eq_div_mul]
        exact Nat.div_le_div_right hQ
      have key' : ((n.natAbs / 2 ^ (-e).toNat : Nat) : Int) ≤
          ((Q / 2 ^ (-F32.quantumExp n e).toNat : Nat) : Int) := by exact_mod_cast key
      rw [Int.natCast_div, Int.natCast_div, hN] at key'
      push_cast at key'
      exact le_trans hv key'
    · have he : ¬ 0 ≤ e := by omega
      rw [if_neg he] at hv
      rw [hzero] at hQ' ⊢
      simp only [le_refl, if_true, Int.toNat_zero, pow_zero, mul_one]
      rw [zero_sub] at hQ'
      exact le_trans hv hQ'
    · -- the result has 24 significant bits above the units
      rw [if_pos hpos.le]
      have hb := bitLen_spec n.natAbs hNpos
      have hqe : F32.quantumExp n e = e + (bitLen n.natAbs : Int) - 1 - 23 := by
        unfold F32.quantumExp at hpos ⊢
        rcases le_total (e + (bitLen n.natAbs : Int) - 1) (-126) with h | h
        · rw [max_eq_right h] at hpos; omega
        · rw [max_eq_left h]
      have hsh : (F32.quantumExp n e - e).toNat = bitLen n.natAbs - 24 := by omega
      have hbl : 25 ≤ bitLen n.natAbs := by omega
      have h23 : 2 ^ 23 ≤ n.natAbs / 2 ^ (F32.quantumExp n e - e).toNat := by
        rw [hsh, Nat.le_div_iff_mul_le (by positivity), ← pow_add]
        have : 23 + (bitLen n.natAbs - 24) = bitLen n.natAbs - 1 := by omega
        rw [this]
        exact hb.2
      have hQ23 : (2 : Int) ^ 23 ≤ (Q : Int) := by exact_mod_cast le_trans h23 hQ
      have h2 : (2 : Int) ≤ 2 ^ (F32.quantumExp n e).toNat := by
        have : (2 : Int) ^ 1 ≤ 2 ^ (F32.quantumExp n e).toNat :=
          pow_le_pow_right₀ (by norm_num) (by omega)
        simpa using this
      have : (2 : Int) ^ 23 * 2 ≤ (Q : Int) * 2 ^ (F32.quantumExp n e).toNat :=
        mul_le_mul hQ23 h2 (by norm_num) (by positivity)
      have h24 : (2 : Int) ^ 24 = 2 ^ 23 * 2 := by norm_num
      omega

/-- A coordinate `>= 1` scaled by a dimension in `(0, 2 ^ 24)` converts to a pixel at or
beyond the dimension. -/
theorem F32.toInt_mul_ge_of_ge_one (dim : Int) (c : F32) (p : Int) (hdim0 : 0 < dim)
    (hdim : dim < 2 ^ 24) (hc : F32.ge c (F32.fin 1 0) = true)
    (hp : F32.toInt (F32.mul (F32.ofInt dim) c) = Res.val p) : dim ≤ p := by
  have hof : F32.ofInt dim = F32.fin dim 0 :=
    F32.round_of_valid dim 0 (by omega) (by norm_num) (by norm_num) (by omega)
  rw [hof] at hp
  cases c with
  | fin m e =>
    obtain ⟨m', e', hr, rfl⟩ := F32.toInt_eq_val_fin _ _ hp
    simp only [F32.mul] at hr
    simp only [F32.ge, decide_eq_true_eq, one_mul] at hc
    have hP : ∀ k : Nat, (0 : Int) < 2 ^ k := fun k => by positivity
    have hm : 0 < m := by
      by_contra hneg
      have h1 := hP (0 - min e 0).toNat
      have h2 : m * 2 ^ (e - min e 0).toNat ≤ 0 :=
        Int.mul_nonpos_of_nonpos_of_nonneg (by omega) (hP _).le
      omega
    have hpos : 0 < dim * m := Int.mul_pos hdim0 hm
    refine F32.round_trunc_ge dim (dim * m) (0 + e) m' e' hdim hpos ?_ hr
    rw [F32.trunc_of_nonneg _ _ hpos.le, zero_add]
    rcases le_or_lt 0 e with he | he
    · rw [if_pos he]
      rw [min_eq_right he] at hc
      simp only [sub_zero, Int.toNat_zero, pow_zero] at hc
      have : dim * 1 ≤ dim * (m * 2 ^ e.toNat) := Int.mul_le_mul_of_nonneg_left hc hdim0.le
      rw [mul_one, ← mul_assoc] at this
      exact this
    · rw [if_neg (not_le.mpr he)]
      rw [min_eq_left he.le] at hc
      simp only [sub_self, Int.toNat_zero, pow_zero, mul_one, zero_sub] at hc
      rw [Int.le_ediv_iff_mul_le (hP _)]
      exact Int.mul_le_mul_of_nonneg_left hc hdim0.le
  | inf s => simp [F32.mul, F32.toInt, show dim ≠ 0 by omega] at hp
  | nan => simp [F32.mul, F32.toInt] at hp

/-- A negative coordinate scaled by a positive dimension converts to a pixel `<= 0`. -/
theorem F32.toInt_mul_nonpos_of_neg (dim : Int) (c : F32) (p : Int) (hdim0 : 0 < dim)
    (hc : F32.lt c (F32.fin 0 0) = true)
    (hp : F32.toInt (F32.mul (F32.ofInt dim) c) = Res.val p) : p ≤ 0 := by
  obtain ⟨m', e', hr, rfl⟩ := F32.toInt_eq_val_fin _ _ hp
  apply F32.trunc_nonpos
  cases c with
  | fin m e =>
    simp only [F32.lt, decide_eq_true_eq, zero_mul] at hc
    have hm : m < 0 := by
      by_contra hneg
      have h2 : 0 ≤ m * 2 ^ (e - min e 0).toNat :=
        Int.mul_nonneg (by omega) (by positivity)
      omega
    cases hw : F32.ofInt dim with
    | fin w ew =>
      have hw0 : 0 ≤ w := F32.round_nonneg dim 0 w ew hdim0.le hw
      rw [hw] at hr
      simp only [F32.mul] at hr
      exact F32.round_nonpos (w * m) (ew + e) m' e'
        (Int.mul_nonpos_of_nonneg_of_nonpos hw0 hm.le) hr
    | inf s =>
      rw [hw] at hr
      simp [F32.mul, show m ≠ 0 by omega] at hr
    | nan =>
      rw [hw] at hr
      simp [F32.mul] at hr
  | inf s =>
    cases hw : F32.ofInt dim with
    | fin w ew =>
      rw [hw] at hr
      simp only [F32.mul] at hr
      split at hr <;> simp at hr
    | inf t =>
      rw [hw] at hr
      simp [F32.mul] at hr
    | nan =>
      rw [hw] at hr
      simp [F32.mul] at hr
  | nan => simp [F32.lt] at hc

/-! ## When `drawDetection` completes, and with what -/

/-- Exactly when `drawDetection` completes, and with which frame: the four edges and
the three spatial coordinates convert to `int`, the class index is inside the label
map, the text positions do not overflow, and the five calls are added in order. -/
theorem drawDetection_eq_val_iff (self : DetectionDisplay) (frame : Mat)
    (d : SpatialImgDetection) (frame' : Mat) :
    self.drawDetection frame d = Res.val frame' ↔
      ∃ xmax xmin ymax ymin label xi yi zi,
        F32.toInt (F32.mul (F32.ofInt frame.cols) d.xmax) = Res.val xmax ∧
        F32.toInt (F32.mul (F32.ofInt frame.cols) d.xmin) = Res.val xmin ∧
        F32.toInt (F32.mul (F32.ofInt frame.rows) d.ymax) = Res.val ymax ∧
        F32.toInt (F32.mul (F32.ofInt frame.rows) d.ymin) = Res.val ymin ∧
        self.labelMap_[d.label]? = some label ∧
        F32.toInt d.spatialCoordinates.x = Res.val xi ∧
        F32.toInt d.spatialCoordinates.y = Res.val yi ∧
        F32.toInt d.spatialCoordinates.z = Res.val zi ∧
        INT_MIN ≤ ymin - 5 ∧ xmin + 3 ≤ INT_MAX ∧ ymin + 45 ≤ INT_MAX ∧
        frame' = { frame with drawn := frame.drawn ++
          [DrawOp.rectangle ⟨xmax, ymax⟩ ⟨xmin, ymin⟩
              (if F32.lt d.spatialCoordinates.z (F32.ofInt 300) then ⟨0, 0, 255⟩ else ⟨0, 255, 0⟩) 1,
           DrawOp.putText
              (if F32.lt d.spatialCoordinates.z (F32.ofInt 300) then label ++ " [TOO CLOSE]" else label)
              ⟨xmin, ymin - 5⟩ FONT_HERSHEY_TRIPLEX ⟨1, -1⟩ ⟨255, 255, 255⟩,
           DrawOp.putText ("X: " ++ toString xi ++ "mm") ⟨xmin + 3, ymin + 15⟩
              FONT_HERSHEY_TRIPLEX ⟨1, -1⟩ ⟨255, 255, 255⟩,
           DrawOp.putText ("Y: " ++ toString yi ++ "mm") ⟨xmin + 3, ymin + 30⟩
              FONT_HERSHEY_TRIPLEX ⟨1, -1⟩ ⟨255, 255, 255⟩,
           DrawOp.putText ("Z (Depth): " ++ toString zi ++ "mm") ⟨xmin + 3, ymin + 45⟩
              FONT_HERSHEY_TRIPLEX ⟨1, -1⟩ ⟨255, 255, 255⟩] } := by
  unfold drawDetection
  simp only [Res.bind_eq_val, Res.pure_eq_val, intResult_eq_val, tryCatch_vectorIndex,
    vectorIndex_eq_val, cv.rectangle, cv.putText]
  constructor
  · rintro ⟨xmax, hxmax, xmin, hxmin, ymax, hymax, ymin, hymin, label, hl, _, ⟨h5, rfl⟩, xi, hxi,
      yi, hyi, zi, hzi, _, ⟨h3, rfl⟩, _, ⟨h15, rfl⟩, _, ⟨h3a, rfl⟩, _, ⟨h30, rfl⟩, _, ⟨h3b, rfl⟩,
      _, ⟨h45, rfl⟩, rfl⟩
    refine ⟨xmax, xmin, ymax, ymin, label, xi, yi, zi, hxmax, hxmin, hymax, hymin, hl, hxi, hyi,
      hzi, h5.1, h3.2, h45.2, ?_⟩
    simp
  · rintro ⟨xmax, xmin, ymax, ymin, label, xi, yi, zi, hxmax, hxmin, hymax, hymin, hl, hxi, hyi,
      hzi, h5, h3, h45, rfl⟩
    have rx := F32.toInt_range _ _ hxmin
    have ry := F32.toInt_range _ _ hymin
    simp only [INT_MIN, INT_MAX] at rx ry h5 h3 h45
    refine ⟨xmax, hxmax, xmin, hxmin, ymax, hymax, ymin, hymin, label, hl, ymin - 5, ⟨?_, rfl⟩,
      xi, hxi, yi, hyi, zi, hzi, xmin + 3, ⟨?_, rfl⟩, ymin + 15, ⟨?_, rfl⟩, xmin + 3, ⟨?_, rfl⟩,
      ymin + 30, ⟨?_, rfl⟩, xmin + 3, ⟨?_, rfl⟩, ymin + 45, ⟨?_, rfl⟩, ?_⟩
    all_goals first
      | (simp only [INT_MIN, INT_MAX]; omega)
      | simp

/-- Nothing in `drawDetection` throws. -/
theorem drawDetection_ne_thrown (self : DetectionDisplay) (frame : Mat)
    (d : SpatialImgDetection) : self.drawDetection frame d ≠ Res.thrown := by
  unfold drawDetection
  simp only [tryCatch_vectorIndex]
  repeat' first
    | exact F32.toInt_ne_thrown _
    | exact intResult_ne_thrown _
    | exact vectorIndex_ne_thrown _ _
    | (refine Res.bind_ne_thrown _ _ ?_ (fun _ => ?_))
    | (simp [Pure.pure])

/-- With a class index outside the label map `drawDetection` is undefined behaviour,
whatever the frame and the other fields. -/
theorem drawDetection_ub_of_out_of_bounds (self : DetectionDisplay) (frame : Mat)
    (d : SpatialImgDetection) (hi : self.labelMap_.length ≤ d.label) :
    self.drawDetection frame d = Res.ub := by
  cases h : self.drawDetection frame d with
  | val frame' =>
    obtain ⟨_, _, _, _, label, _, _, _, -, -, -, -, hl, -⟩ :=
      (drawDetection_eq_val_iff self frame d frame').mp h
    rw [List.getElem?_eq_none hi] at hl
    exact absurd hl (by simp)
  | thrown => exact absurd h (drawDetection_ne_thrown self frame d)
  | ub => rfl

/-- The calls added by `drawDetection` depend on the frame through its dimensions only. -/
theorem drawDetection_on_blank (self : DetectionDisplay) (frame : Mat)
    (d : SpatialImgDetection) (m : Mat)
    (h : self.drawDetection { cols := frame.cols, rows := frame.rows, drawn := [] } d
      = Res.val m) :
    self.drawDetection frame d =
      Res.val { frame with drawn := frame.drawn ++ issuedOps self frame.cols frame.rows d } := by
  have hops : issuedOps self frame.cols frame.rows d = m.drawn := by
    simp [issuedOps, h]
  obtain ⟨xmax, xmin, ymax, ymin, label, xi, yi, zi, h1, h2, h3, h4, h5, h6, h7, h8, h9, h10,
    h11, rfl⟩ := (drawDetection_eq_val_iff self _ d m).mp h
  rw [hops, drawDetection_eq_val_iff]
  exact ⟨xmax, xmin, ymax, ymin, label, xi, yi, zi, h1, h2, h3, h4, h5, h6, h7, h8, h9, h10,
    h11, by simp⟩

/-- The loop of `processGroup` adds the calls of each detection in list order. -/
theorem foldlM_drawDetection (self : DetectionDisplay) (ds : List SpatialImgDetection) :
    ∀ frame : Mat,
      (∀ d ∈ ds, ∃ m, self.drawDetection
        { cols := frame.cols, rows := frame.rows, drawn := [] } d = Res.val m) →
      ds.foldlM (fun fr detection => self.drawDetection fr detection) frame =
        Res.val { frame with drawn := frame.drawn ++
          (ds.map (issuedOps self frame.cols frame.rows)).flatten } := by
  induction ds with
  | nil =>
    intro frame _
    simp [Pure.pure]
  | cons d ds ih =>
    intro frame hall
    obtain ⟨m, hm⟩ := hall d (List.mem_cons_self d ds)
    rw [List.foldlM_cons, drawDetection_on_blank self frame d m hm]
    show List.foldlM _ _ ds = _
    rw [ih]
    · simp
    · intro d' hd'
      exact hall d' (List.mem_cons_of_mem d hd')

/-! ## Worked examples -/

theorem drawDetection_detPerson :
    nodePerson.drawDetection frame640x480 detPerson = Res.val framePerson := by decide

theorem drawDetection_detAt300 :
    nodePerson.drawDetection frame640x480 detAt300 = Res.val frameAt300 := by decide

theorem drawDetection_detFractional :
    nodePerson.drawDetection frame640x480 detFractional = Res.val frameFractional := by decide

theorem drawDetection_detQuarter :
    nodePerson.drawDetection frame640x480 detQuarter = Res.val frameQuarter := by decide

/-! ## The properties -/

/-- C1: on every run of `drawDetection` that completes, the first two calls are the
rectangle and the label text; when `z < 300` the rectangle is red `(0,0,255)` and the
text is the resolved label followed by `" [TOO CLOSE]"`; when `z >= 300` the rectangle
is green `(0,255,0)` and the text is the resolved label alone; one of the two cases
applies, and `z = 300` exactly falls in the second. -/
theorem drawDetection_colour_and_suffix (self : DetectionDisplay) (frame : Mat)
    (d : SpatialImgDetection) (frame' : Mat)
    (h : self.drawDetection frame d = Res.val frame') :
    ∃ resolved pt1 pt2 color text org rest,
      tryCatch (vectorIndex self.labelMap_ d.label) (fun _ => Res.val (toString d.label))
        = Res.val resolved ∧
      frame'.drawn = frame.drawn ++
        DrawOp.rectangle pt1 pt2 color 1 ::
        DrawOp.putText text org FONT_HERSHEY_TRIPLEX ⟨1, -1⟩ ⟨255, 255, 255⟩ :: rest ∧
      (F32.lt d.spatialCoordinates.z (F32.ofInt 300) = true →
        color = ⟨0, 0, 255⟩ ∧ text = resolved ++ " [TOO CLOSE]") ∧
      (F32.ge d.spatialCoordinates.z (F32.ofInt 300) = true →
        color = ⟨0, 255, 0⟩ ∧ text = resolved) ∧
      (F32.lt d.spatialCoordinates.z (F32.ofInt 300) = true ∨
        F32.ge d.spatialCoordinates.z (F32.ofInt 300) = true) ∧
      F32.ge (F32.fin 300 0) (F32.ofInt 300) = true := by
  obtain ⟨xmax, xmin, ymax, ymin, label, xi, yi, zi, -, -, -, -, hl, -, -, hz, -, -, -, rfl⟩ :=
    (drawDetection_eq_val_iff self frame d frame').mp h
  refine ⟨label, _, _, _, _, _, _, ?_, rfl, ?_, ?_, F32.lt_or_ge_300_of_toInt _ _ hz, by decide⟩
  · rw [tryCatch_vectorIndex, vectorIndex_eq_val]
    exact hl
  · intro hlt
    simp [hlt]
  · intro hge
    simp [F32.lt_false_of_ge _ _ hge]

/-- Witness of C1 at depth 300 on the blank 640 by 480 frame. -/
theorem drawDetection_colour_and_suffix_witness :
    ∃ resolved pt1 pt2 color text org rest,
      tryCatch (vectorIndex nodePerson.labelMap_ detAt300.label)
        (fun _ => Res.val (toString detAt300.label)) = Res.val resolved ∧
      frameAt300.drawn = frame640x480.drawn ++
        DrawOp.rectangle pt1 pt2 color 1 ::
        DrawOp.putText text org FONT_HERSHEY_TRIPLEX ⟨1, -1⟩ ⟨255, 255, 255⟩ :: rest ∧
      (F32.lt detAt300.spatialCoordinates.z (F32.ofInt 300) = true →
        color = ⟨0, 0, 255⟩ ∧ text = resolved ++ " [TOO CLOSE]") ∧
      (F32.ge detAt300.spatialCoordinates.z (F32.ofInt 300) = true →
        color = ⟨0, 255, 0⟩ ∧ text = resolved) ∧
      (F32.lt detAt300.spatialCoordinates.z (F32.ofInt 300) = true ∨
        F32.ge detAt300.spatialCoordinates.z (F32.ofInt 300) = true) ∧
      F32.ge (F32.fin 300 0) (F32.ofInt 300) = true :=
  drawDetection_colour_and_suffix nodePerson frame640x480 detAt300 frameAt300
    drawDetection_detAt300

/-- C2 (the code at the failing inputs): with the empty label map that `main` passes when
the network reports no classes, and with a one-entry map and class index 7, the lookup
`labelMap_[detection.label]` is undefined behaviour and `drawDetection` does not
complete; nothing is thrown, so the handler that would produce `"0"` or `"7"` never
runs; the same detection with an index inside the map completes. -/
theorem drawDetection_out_of_bounds_is_undefined :
    (nodeNoLabels.build "Display" []).drawDetection frame640x480 detPerson = Res.ub ∧
    nodePerson.drawDetection frame640x480 detLabel7 = Res.ub ∧
    vectorIndex nodePerson.labelMap_ detLabel7.label = Res.ub ∧
    tryCatch (vectorIndex nodeNoLabels.labelMap_ detPerson.label)
      (fun _ => Res.val (toString detPerson.label)) = Res.ub ∧
    toString detPerson.label = "0" ∧ toString detLabel7.label = "7" ∧
    nodePerson.drawDetection frame640x480 detPerson = Res.val framePerson := by
  decide

/-- C3: on every run of `drawDetection` that completes with the class index inside the
label map, the label text drawn (the second call) is `labelMap_[i]` followed by
`" [TOO CLOSE]"` when `z < 300` and `labelMap_[i]` alone when `z >= 300`; one of the two
cases applies. -/
theorem drawDetection_label_in_bounds (self : DetectionDisplay) (frame : Mat)
    (d : SpatialImgDetection) (frame' : Mat) (hi : d.label < self.labelMap_.length)
    (h : self.drawDetection frame d = Res.val frame') :
    ∃ first text org rest,
      frame'.drawn = frame.drawn ++
        first :: DrawOp.putText text org FONT_HERSHEY_TRIPLEX ⟨1, -1⟩ ⟨255, 255, 255⟩ :: rest ∧
      (F32.lt d.spatialCoordinates.z (F32.ofInt 300) = true →
        text = self.labelMap_[d.label] ++ " [TOO CLOSE]") ∧
      (F32.ge d.spatialCoordinates.z (F32.ofInt 300) = true →
        text = self.labelMap_[d.label]) ∧
      (F32.lt d.spatialCoordinates.z (F32.ofInt 300) = true ∨
        F32.ge d.spatialCoordinates.z (F32.ofInt 300) = true) := by
  obtain ⟨xmax, xmin, ymax, ymin, label, xi, yi, zi, -, -, -, -, hl, -, -, hz, -, -, -, rfl⟩ :=
    (drawDetection_eq_val_iff self frame d frame').mp h
  have hlabel : self.labelMap_[d.label] = label := by
    rw [List.getElem?_eq_getElem hi] at hl
    exact Option.some.inj hl
  refine ⟨_, _, _, _, rfl, ?_, ?_, F32.lt_or_ge_300_of_toInt _ _ hz⟩
  · intro hlt
    simp [hlt, hlabel]
  · intro hge
    simp [F32.lt_false_of_ge _ _ hge, hlabel]

/-- Witness of C3 at depth 150 with the one-entry label map. -/
theorem drawDetection_label_in_bounds_witness :
    ∃ first text org rest,
      framePerson.drawn = frame640x480.drawn ++
        first :: DrawOp.putText text org FONT_HERSHEY_TRIPLEX ⟨1, -1⟩ ⟨255, 255, 255⟩ :: rest ∧
      (F32.lt detPerson.spatialCoordinates.z (F32.ofInt 300) = true →
        text = "person" ++ " [TOO CLOSE]") ∧
      (F32.ge detPerson.spatialCoordinates.z (F32.ofInt 300) = true → text = "person") ∧
      (F32.lt detPerson.spatialCoordinates.z (F32.ofInt 300) = true ∨
        F32.ge detPerson.spatialCoordinates.z (F32.ofInt 300) = true) :=
  drawDetection_label_in_bounds nodePerson frame640x480 detPerson framePerson (by decide)
    drawDetection_detPerson

/-- C4 (the claim at a failing input): on the 640 by 480 frame the coordinates
`xmin = ymin = -1/1024` lie outside `[0,1]`, `drawDetection` completes, and the corner
it draws from them is `(0, 0)`, inside the frame. -/
theorem drawDetection_negative_coordinate_inside_frame :
    F32.lt detSlightlyNegative.xmin (F32.fin 0 0) = true ∧
    F32.lt detSlightlyNegative.ymin (F32.fin 0 0) = true ∧
    nodePerson.drawDetection frame640x480 detSlightlyNegative =
      Res.val frameSlightlyNegative ∧
    frameSlightlyNegative.drawn.head? =
      some (DrawOp.rectangle ⟨320, 240⟩ ⟨0, 0⟩ ⟨0, 255, 0⟩ 1) ∧
    ((0 : Int) ≤ 0 ∧ (0 : Int) < frame640x480.cols) ∧
    ((0 : Int) ≤ 0 ∧ (0 : Int) < frame640x480.rows) := by
  decide

/-- C4 (amended): on every run of `drawDetection` that completes on a frame of width
`W` and height `H`, each pixel edge is the binary32 product of the dimension and the
normalized coordinate, truncated toward zero, and the rectangle is drawn between
`(xmax, ymax)` and `(xmin, ymin)` as computed, with no clamping: for a dimension in
`(0, 2 ^ 24)` a coordinate `>= 1` gives a pixel at or beyond the dimension, and for a
positive dimension a negative coordinate gives a pixel `<= 0`.  On a 640 by 480 frame
the box `{0,0,1,1}` gives `{0,0,640,480}`, `{0.25,0.25,0.75,0.75}` gives
`{160,120,480,360}`, `{-0.5,-0.5,1.5,1.5}` gives `{-320,-240,960,720}`, and
`{-1/1024,-1/1024,0.5,0.5}` gives `{0,0,320,240}`. -/
theorem drawDetection_pixel_edges (self : DetectionDisplay) (frame : Mat)
    (d : SpatialImgDetection) (frame' : Mat)
    (h : self.drawDetection frame d = Res.val frame') :
    ∃ xmin ymin xmax ymax color rest,
      (∃ m e, F32.mul (F32.ofInt frame.cols) d.xmin = F32.fin m e ∧ xmin = F32.trunc m e) ∧
      (∃ m e, F32.mul (F32.ofInt frame.cols) d.xmax = F32.fin m e ∧ xmax = F32.trunc m e) ∧
      (∃ m e, F32.mul (F32.ofInt frame.rows) d.ymin = F32.fin m e ∧ ymin = F32.trunc m e) ∧
      (∃ m e, F32.mul (F32.ofInt frame.rows) d.ymax = F32.fin m e ∧ ymax = F32.trunc m e) ∧
      frame'.drawn = frame.drawn ++
        DrawOp.rectangle ⟨xmax, ymax⟩ ⟨xmin, ymin⟩ color 1 :: rest ∧
      (0 < frame.cols → frame.cols < 2 ^ 24 →
        (F32.ge d.xmin (F32.fin 1 0) = true → frame.cols ≤ xmin) ∧
        (F32.ge d.xmax (F32.fin 1 0) = true → frame.cols ≤ xmax)) ∧
      (0 < frame.rows → frame.rows < 2 ^ 24 →
        (F32.ge d.ymin (F32.fin 1 0) = true → frame.rows ≤ ymin) ∧
        (F32.ge d.ymax (F32.fin 1 0) = true → frame.rows ≤ ymax)) ∧
      (0 < frame.cols →
        (F32.lt d.xmin (F32.fin 0 0) = true → xmin ≤ 0) ∧
        (F32.lt d.xmax (F32.fin 0 0) = true → xmax ≤ 0)) ∧
      (0 < frame.rows →
        (F32.lt d.ymin (F32.fin 0 0) = true → ymin ≤ 0) ∧
        (F32.lt d.ymax (F32.fin 0 0) = true → ymax ≤ 0)) ∧
      (frame.cols = 640 → frame.rows = 480 →
        d.xmin = F32.fin 0 0 → d.ymin = F32.fin 0 0 → d.xmax = F32.fin 1 0 →
        d.ymax = F32.fin 1 0 →
        xmin = 0 ∧ ymin = 0 ∧ xmax = 640 ∧ ymax = 480) ∧
      (frame.cols = 640 → frame.rows = 480 →
        d.xmin = F32.fin 1 (-2) → d.ymin = F32.fin 1 (-2) → d.xmax = F32.fin 3 (-2) →
        d.ymax = F32.fin 3 (-2) →
        xmin = 160 ∧ ymin = 120 ∧ xmax = 480 ∧ ymax = 360) ∧
      (frame.cols = 640 → frame.rows = 480 →
        d.xmin = F32.fin (-1) (-1) → d.ymin = F32.fin (-1) (-1) → d.xmax = F32.fin 3 (-1) →
        d.ymax = F32.fin 3 (-1) →
        xmin = -320 ∧ ymin = -240 ∧ xmax = 960 ∧ ymax = 720) ∧
      (frame.cols = 640 → frame.rows = 480 →
        d.xmin = F32.fin (-1) (-10) → d.ymin = F32.fin (-1) (-10) → d.xmax = F32.fin 1 (-1) →
        d.ymax = F32.fin 1 (-1) →
        xmin = 0 ∧ ymin = 0 ∧ xmax = 320 ∧ ymax = 240) := by
  obtain ⟨xmax, xmin, ymax, ymin, label, xi, yi, zi, hxmax, hxmin, hymax, hymin, -, -, -, -,
    -, -, -, rfl⟩ := (drawDetection_eq_val_iff self frame d frame').mp h
  have hcase : ∀ (a b c e : F32) (pa pb pc pe : Int),
      F32.toInt (F32.mul (F32.ofInt 640) a) = Res.val pa →
      F32.toInt (F32.mul (F32.ofInt 480) b) = Res.val pb →
      F32.toInt (F32.mul (F32.ofInt 640) c) = Res.val pc →
      F32.toInt (F32.mul (F32.ofInt 480) e) = Res.val pe →
      frame.cols = 640 → frame.rows = 480 →
      d.xmin = a → d.ymin = b → d.xmax = c → d.ymax = e →
      xmin = pa ∧ ymin = pb ∧ xmax = pc ∧ ymax = pe := by
    intro a b c e pa pb pc pe e1 e2 e3 e4 hc hr h1 h2 h3 h4
    rw [hc, h1, e1] at hxmin
    rw [hr, h2, e2] at hymin
    rw [hc, h3, e3] at hxmax
    rw [hr, h4, e4] at hymax
    exact ⟨(Res.val.inj hxmin).symm, (Res.val.inj hymin).symm, (Res.val.inj hxmax).symm,
      (Res.val.inj hymax).symm⟩
  refine ⟨xmin, ymin, xmax, ymax, _, _, F32.toInt_eq_val_fin _ _ hxmin,
    F32.toInt_eq_val_fin _ _ hxmax, F32.toInt_eq_val_fin _ _ hymin,
    F32.toInt_eq_val_fin _ _ hymax, rfl, ?_, ?_, ?_, ?_, ?_, ?_, ?_, ?_⟩
  · intro h0 h24
    exact ⟨fun hc => F32.toInt_mul_ge_of_ge_one _ _ _ h0 h24 hc hxmin,
      fun hc => F32.toInt_mul_ge_of_ge_one _ _ _ h0 h24 hc hxmax⟩
  · intro h0 h24
    exact ⟨fun hc => F32.toInt_mul_ge_of_ge_one _ _ _ h0 h24 hc hymin,
      fun hc => F32.toInt_mul_ge_of_ge_one _ _ _ h0 h24 hc hymax⟩
  · intro h0
    exact ⟨fun hc => F32.toInt_mul_nonpos_of_neg _ _ _ h0 hc hxmin,
      fun hc => F32.toInt_mul_nonpos_of_neg _ _ _ h0 hc hxmax⟩
  · intro h0
    exact ⟨fun hc => F32.toInt_mul_nonpos_of_neg _ _ _ h0 hc hymin,
      fun hc => F32.toInt_mul_nonpos_of_neg _ _ _ h0 hc hymax⟩
  · exact hcase _ _ _ _ 0 0 640 480 (by decide) (by decide) (by decide) (by decide)
  · exact hcase _ _ _ _ 160 120 480 360 (by decide) (by decide) (by decide) (by decide)
  · exact hcase _ _ _ _ (-320) (-240) 960 720 (by decide) (by decide) (by decide) (by decide)
  · exact hcase _ _ _ _ 0 0 320 240 (by decide) (by decide) (by decide) (by decide)

/-- Witness of C4 (amended) with the box `{0.25, 0.25, 0.75, 0.75}` on the blank 640 by
480 frame: the call completes and the rectangle lies between `(480, 360)` and
`(160, 120)`. -/
theorem drawDetection_pixel_edges_witness :
    nodePerson.drawDetection frame640x480 detQuarter = Res.val frameQuarter ∧
    ∃ xmin ymin xmax ymax color rest,
      frameQuarter.drawn = frame640x480.drawn ++
        DrawOp.rectangle ⟨xmax, ymax⟩ ⟨xmin, ymin⟩ color 1 :: rest ∧
      xmin = 160 ∧ ymin = 120 ∧ xmax = 480 ∧ ymax = 360 := by
  refine ⟨drawDetection_detQuarter, ?_⟩
  obtain ⟨xmin, ymin, xmax, ymax, color, rest, -, -, -, -, hd, -, -, -, -, -, hq, -, -⟩ :=
    drawDetection_pixel_edges nodePerson frame640x480 detQuarter frameQuarter
      drawDetection_detQuarter
  exact ⟨xmin, ymin, xmax, ymax, color, rest, hd, hq rfl rfl rfl rfl rfl rfl⟩

/-- C5: on a 640 by 480 frame, with label map `["person"]` and the detection
`{xmin 0.1, ymin 0.1, xmax 0.4, ymax 0.4, z 150, label 0}` (whatever its `x` and `y`, as
long as they convert to `int`), `drawDetection` completes, draws the rectangle in red
`(0,0,255)` between `(256,192)` and `(64,48)`, and the label text `"person [TOO CLOSE]"`. -/
theorem drawDetection_person_scenario (displayName : String) (already : List DrawOp)
    (x y : F32) (xi yi : Int)
    (hx : F32.toInt x = Res.val xi) (hy : F32.toInt y = Res.val yi) :
    DetectionDisplay.drawDetection { displayName_ := displayName, labelMap_ := ["person"] }
        { cols := 640, rows := 480, drawn := already }
        { label := 0, xmin := f0_1, ymin := f0_1, xmax := f0_4, ymax := f0_4,
          spatialCoordinates := ⟨x, y, F32.fin 150 0⟩ } =
      Res.val { cols := 640, rows := 480, drawn := already ++
        [DrawOp.rectangle ⟨256, 192⟩ ⟨64, 48⟩ ⟨0, 0, 255⟩ 1,
         DrawOp.putText "person [TOO CLOSE]" ⟨64, 43⟩ FONT_HERSHEY_TRIPLEX ⟨1, -1⟩
           ⟨255, 255, 255⟩,
         DrawOp.putText ("X: " ++ toString xi ++ "mm") ⟨67, 63⟩ FONT_HERSHEY_TRIPLEX ⟨1, -1⟩
           ⟨255, 255, 255⟩,
         DrawOp.putText ("Y: " ++ toString yi ++ "mm") ⟨67, 78⟩ FONT_HERSHEY_TRIPLEX ⟨1, -1⟩
           ⟨255, 255, 255⟩,
         DrawOp.putText "Z (Depth): 150mm" ⟨67, 93⟩ FONT_HERSHEY_TRIPLEX ⟨1, -1⟩
           ⟨255, 255, 255⟩] } := by
  rw [drawDetection_eq_val_iff]
  have e1 : F32.toInt (F32.mul (F32.ofInt 640) f0_4) = Res.val 256 := by decide
  have e2 : F32.toInt (F32.mul (F32.ofInt 640) f0_1) = Res.val 64 := by decide
  have e3 : F32.toInt (F32.mul (F32.ofInt 480) f0_4) = Res.val 192 := by decide
  have e4 : F32.toInt (F32.mul (F32.ofInt 480) f0_1) = Res.val 48 := by decide
  have e5 : F32.toInt (F32.fin 150 0) = Res.val 150 := by decide
  refine ⟨256, 64, 192, 48, "person", xi, yi, 150, e1, e2, e3, e4, rfl, hx, hy, e5,
    by decide, by decide, by decide, ?_⟩
  have hlt : F32.lt (F32.fin 150 0) (F32.ofInt 300) = true := by decide
  have h1 : "person" ++ " [TOO CLOSE]" = "person [TOO CLOSE]" := by decide
  have h2 : "Z (Depth): " ++ toString (150 : Int) ++ "mm" = "Z (Depth): 150mm" := by decide
  simp only [hlt, if_true, h1, h2, Mat.mk.injEq, true_and]
  norm_num

/-- Witness of C5 with `x = 0` and `y = 0` on a frame with nothing drawn yet. -/
theorem drawDetection_person_scenario_witness :
    F32.toInt (F32.fin 0 0) = Res.val 0 ∧
    DetectionDisplay.drawDetection { displayName_ := "Display", labelMap_ := ["person"] }
        { cols := 640, rows := 480, drawn := [] }
        { label := 0, xmin := f0_1, ymin := f0_1, xmax := f0_4, ymax := f0_4,
          spatialCoordinates := ⟨F32.fin 0 0, F32.fin 0 0, F32.fin 150 0⟩ } =
      Res.val { cols := 640, rows := 480, drawn := [] ++
        [DrawOp.rectangle ⟨256, 192⟩ ⟨64, 48⟩ ⟨0, 0, 255⟩ 1,
         DrawOp.putText "person [TOO CLOSE]" ⟨64, 43⟩ FONT_HERSHEY_TRIPLEX ⟨1, -1⟩
           ⟨255, 255, 255⟩,
         DrawOp.putText ("X: " ++ toString (0 : Int) ++ "mm") ⟨67, 63⟩ FONT_HERSHEY_TRIPLEX
           ⟨1, -1⟩ ⟨255, 255, 255⟩,
         DrawOp.putText ("Y: " ++ toString (0 : Int) ++ "mm") ⟨67, 78⟩ FONT_HERSHEY_TRIPLEX
           ⟨1, -1⟩ ⟨255, 255, 255⟩,
         DrawOp.putText "Z (Depth): 150mm" ⟨67, 93⟩ FONT_HERSHEY_TRIPLEX ⟨1, -1⟩
           ⟨255, 255, 255⟩] } :=
  ⟨by decide,
    drawDetection_person_scenario "Display" [] (F32.fin 0 0) (F32.fin 0 0) 0 0 (by decide)
      (by decide)⟩

/-- C6: when both messages are present, `processGroup` on an empty detection list
completes and shows exactly the input frame, with no drawing call added; and for every
list on whose detections `drawDetection` completes, `processGroup` completes and the
frame it shows is the input frame followed by the calls `drawDetection` issues for each
detection, concatenated in list order. -/
theorem processGroup_overlay (self : DetectionDisplay) (frame : Mat) (key : Int) :
    (∃ rest, self.processGroup { images := some frame, detections := some [] } key =
      Res.val (none, Effect.imshow self.displayName_ frame :: rest)) ∧
    (∀ ds : List SpatialImgDetection,
      (∀ d ∈ ds, ∃ m, self.drawDetection
        { cols := frame.cols, rows := frame.rows, drawn := [] } d = Res.val m) →
      ∃ rest, self.processGroup { images := some frame, detections := some ds } key =
        Res.val (none, Effect.imshow self.displayName_
          { frame with drawn := frame.drawn ++
            (ds.map (issuedOps self frame.cols frame.rows)).flatten } :: rest)) := by
  constructor
  · exact ⟨_, rfl⟩
  · intro ds hall
    refine ⟨Effect.waitKey 1 ::
      (if key = (Char.toNat 'q' : Int) then [Effect.stopPipeline] else []), ?_⟩
    unfold processGroup
    simp only [Res.bind_eq_val]
    exact ⟨frame, rfl, ds, rfl, _, foldlM_drawDetection self ds frame hall, rfl⟩

/-- Witness of C6 with two detections on the blank 640 by 480 frame. -/
theorem processGroup_overlay_witness :
    ∃ rest, nodePerson.processGroup
        { images := some frame640x480, detections := some [detPerson, detAt300] } 0 =
      Res.val (none, Effect.imshow nodePerson.displayName_
        { frame640x480 with drawn := frame640x480.drawn ++
          ([detPerson, detAt300].map
            (issuedOps nodePerson frame640x480.cols frame640x480.rows)).flatten } :: rest) :=
  (processGroup_overlay nodePerson frame640x480 0).2 [detPerson, detAt300] (by
    intro d hd
    simp only [List.mem_cons, List.mem_singleton, List.not_mem_nil, or_false] at hd
    rcases hd with rfl | rfl
    · exact ⟨_, drawDetection_detPerson⟩
    · exact ⟨_, drawDetection_detAt300⟩)

/-- C7: the mapping from the `--algorithm` string is a total function: `"min"`, `"max"`,
`"mode"`, `"median"` give `MIN`, `MAX`, `MODE`, `MEDIAN` and print nothing; `"mean"` and
`"average"` give `AVERAGE` and print nothing; the absent option is `"average"`; every
other string gives `AVERAGE` and prints the one warning line; something is printed
exactly when the string is none of the six names. -/
theorem selectAlgorithm_total (algoArg : String) :
    selectAlgorithm "min" = (SpatialLocationCalculatorAlgorithm.MIN, []) ∧
    selectAlgorithm "max" = (SpatialLocationCalculatorAlgorithm.MAX, []) ∧
    selectAlgorithm "mode" = (SpatialLocationCalculatorAlgorithm.MODE, []) ∧
    selectAlgorithm "median" = (SpatialLocationCalculatorAlgorithm.MEDIAN, []) ∧
    selectAlgorithm "mean" = (SpatialLocationCalculatorAlgorithm.AVERAGE, []) ∧
    selectAlgorithm "average" = (SpatialLocationCalculatorAlgorithm.AVERAGE, []) ∧
    selectAlgorithm (algorithmOption none) = (SpatialLocationCalculatorAlgorithm.AVERAGE, []) ∧
    algorithmOption (some algoArg) = algoArg ∧
    (algoArg ∉ ["min", "max", "mode", "median", "mean", "average"] →
      selectAlgorithm algoArg = (SpatialLocationCalculatorAlgorithm.AVERAGE,
        ["Unrecognized algorithm arg: '" ++ cStr algoArg ++ "' using average algorithm"])) ∧
    ((selectAlgorithm algoArg).2 ≠ [] ↔
      algoArg ∉ ["min", "max", "mode", "median", "mean", "average"]) := by
  refine ⟨by decide, by decide, by decide, by decide, by decide, by decide, by decide, rfl,
    ?_, ?_⟩
  · intro hn
    simp only [List.mem_cons, List.mem_singleton, List.not_mem_nil, or_false, not_or] at hn
    obtain ⟨h1, h2, h3, h4, h5, h6⟩ := hn
    simp [selectAlgorithm, h1, h2, h3, h4, h5, h6]
  · unfold selectAlgorithm
    simp only [List.mem_cons, List.mem_singleton, List.not_mem_nil, or_false, not_or]
    by_cases h1 : algoArg = "min"
    · simp [h1]
    by_cases h2 : algoArg = "max"
    · simp [h2]
    by_cases h3 : algoArg = "mode"
    · simp [h3]
    by_cases h4 : algoArg = "median"
    · simp [h4]
    by_cases h5 : algoArg = "mean"
    · simp [h5]
    by_cases h6 : algoArg = "average"
    · simp [h6]
    simp [h1, h2, h3, h4, h5, h6]

/-- Witness of C7 at an unrecognized name. -/
theorem selectAlgorithm_total_witness :
    "fastest" ∉ ["min", "max", "mode", "median", "mean", "average"] ∧
    selectAlgorithm "fastest" = (SpatialLocationCalculatorAlgorithm.AVERAGE,
      ["Unrecognized algorithm arg: '" ++ cStr "fastest" ++ "' using average algorithm"]) :=
  ⟨by decide, (selectAlgorithm_total "fastest").2.2.2.2.2.2.2.2.1 (by decide)⟩

/-- C8: `runDisplayWindow` first shows the frame under the stored display name (the one
given to `build`), then polls with a wait of 1, never 0, and calls `stopPipeline` exactly
when the polled key is `'q'`; and whenever `processGroup` completes, the calls that left
the node are exactly those of its one call to `runDisplayWindow`, so a stop is requested
exactly when the polled key is `'q'`.  (`build` and `drawDetection` make no call that
leaves the node: their results are the stored members and the frame.) -/
theorem runDisplayWindow_stop_iff_q (self : DetectionDisplay) (frame : Mat) (key : Int) :
    (∃ rest, self.runDisplayWindow frame key =
      Effect.imshow self.displayName_ frame :: Effect.waitKey 1 :: rest ∧
      (rest = [Effect.stopPipeline] ∨ rest = [])) ∧
    (Effect.stopPipeline ∈ self.runDisplayWindow frame key ↔ key = (Char.toNat 'q' : Int)) ∧
    (Char.toNat 'q' : Int) = 113 ∧
    Effect.waitKey 0 ∉ self.runDisplayWindow frame key ∧
    (∀ (displayName : String) (labelMap : List String),
      ∃ rest, (self.build displayName labelMap).runDisplayWindow frame key =
        Effect.imshow displayName frame :: Effect.waitKey 1 :: rest) ∧
    (∀ (inGroup : MessageGroup) (out : Option Buffer) (effects : List Effect),
      self.processGroup inGroup key = Res.val (out, effects) →
        out = none ∧
        (∃ shown, effects = self.runDisplayWindow shown key) ∧
        (Effect.stopPipeline ∈ effects ↔ key = (Char.toNat 'q' : Int))) := by
  have hstop : ∀ shown : Mat, Effect.stopPipeline ∈ self.runDisplayWindow shown key ↔
      key = (Char.toNat 'q' : Int) := by
    intro shown
    unfold runDisplayWindow
    by_cases hk : key = (Char.toNat 'q' : Int) <;> simp [hk]
  refine ⟨?_, hstop frame, by decide, ?_, ?_, ?_⟩
  · unfold runDisplayWindow
    split
    · exact ⟨_, rfl, Or.inl rfl⟩
    · exact ⟨_, rfl, Or.inr rfl⟩
  · unfold runDisplayWindow
    by_cases hk : key = (Char.toNat 'q' : Int) <;> simp [hk]
  · intro displayName labelMap
    exact ⟨_, rfl⟩
  · intro inGroup out effects h
    unfold processGroup at h
    simp only [Res.bind_eq_val, Res.pure_eq_val, Prod.mk.injEq] at h
    obtain ⟨_, -, _, -, shown, -, rfl, rfl⟩ := h
    exact ⟨rfl, ⟨shown, rfl⟩, hstop shown⟩

/-- Witness of C8: one detection, polled key `'q'`. -/
theorem runDisplayWindow_stop_iff_q_witness :
    (none : Option Buffer) = none ∧
    (∃ shown, [Effect.imshow "Display" framePerson, Effect.waitKey 1, Effect.stopPipeline] =
      nodePerson.runDisplayWindow shown 113) ∧
    (Effect.stopPipeline ∈
        [Effect.imshow "Display" framePerson, Effect.waitKey 1, Effect.stopPipeline] ↔
      (113 : Int) = (Char.toNat 'q' : Int)) :=
  (runDisplayWindow_stop_iff_q nodePerson frame640x480 113).2.2.2.2.2
    { images := some frame640x480, detections := some [detPerson] } none
    [Effect.imshow "Display" framePerson, Effect.waitKey 1, Effect.stopPipeline] (by decide)

/-- C9: with `(xmin, ymin)` and `(xmax, ymax)` the converted box corners and `xi`, `yi`,
`zi` the spatial coordinates converted to `int`, every run of `drawDetection` that
completes adds exactly five calls, in this order: the rectangle of thickness 1 between
`(xmax, ymax)` and `(xmin, ymin)`, the label text at `(xmin, ymin - 5)`, then
`"X: <xi>mm"` at `(xmin + 3, ymin + 15)`, `"Y: <yi>mm"` at `(xmin + 3, ymin + 30)` and
`"Z (Depth): <zi>mm"` at `(xmin + 3, ymin + 45)`; the four texts are white
`(255,255,255)`, the rectangle is red or green, and white is neither.  Conversely the
run completes, with these five calls, as soon as the seven conversions are defined, the
class index is inside the label map and the text positions are `int`s. -/
theorem drawDetection_five_calls (self : DetectionDisplay) (frame : Mat)
    (d : SpatialImgDetection) :
    (∀ frame' : Mat, self.drawDetection frame d = Res.val frame' →
      ∃ xmin ymin xmax ymax xi yi zi color label,
        F32.toInt (F32.mul (F32.ofInt frame.cols) d.xmin) = Res.val xmin ∧
        F32.toInt (F32.mul (F32.ofInt frame.rows) d.ymin) = Res.val ymin ∧
        F32.toInt (F32.mul (F32.ofInt frame.cols) d.xmax) = Res.val xmax ∧
        F32.toInt (F32.mul (F32.ofInt frame.rows) d.ymax) = Res.val ymax ∧
        F32.toInt d.spatialCoordinates.x = Res.val xi ∧
        F32.toInt d.spatialCoordinates.y = Res.val yi ∧
        F32.toInt d.spatialCoordinates.z = Res.val zi ∧
        frame'.cols = frame.cols ∧ frame'.rows = frame.rows ∧
        frame'.drawn = frame.drawn ++
          [DrawOp.rectangle ⟨xmax, ymax⟩ ⟨xmin, ymin⟩ color 1,
           DrawOp.putText label ⟨xmin, ymin - 5⟩ FONT_HERSHEY_TRIPLEX ⟨1, -1⟩ ⟨255, 255, 255⟩,
           DrawOp.putText ("X: " ++ toString xi ++ "mm") ⟨xmin + 3, ymin + 15⟩
             FONT_HERSHEY_TRIPLEX ⟨1, -1⟩ ⟨255, 255, 255⟩,
           DrawOp.putText ("Y: " ++ toString yi ++ "mm") ⟨xmin + 3, ymin + 30⟩
             FONT_HERSHEY_TRIPLEX ⟨1, -1⟩ ⟨255, 255, 255⟩,
           DrawOp.putText ("Z (Depth): " ++ toString zi ++ "mm") ⟨xmin + 3, ymin + 45⟩
             FONT_HERSHEY_TRIPLEX ⟨1, -1⟩ ⟨255, 255, 255⟩] ∧
        (color = (⟨0, 0, 255⟩ : Scalar) ∨ color = (⟨0, 255, 0⟩ : Scalar)) ∧
        (⟨255, 255, 255⟩ : Scalar) ≠ ⟨0, 0, 255⟩ ∧
        (⟨255, 255, 255⟩ : Scalar) ≠ ⟨0, 255, 0⟩) ∧
    (∀ (xmin ymin xmax ymax xi yi zi : Int) (resolved : String),
      F32.toInt (F32.mul (F32.ofInt frame.cols) d.xmin) = Res.val xmin →
      F32.toInt (F32.mul (F32.ofInt frame.rows) d.ymin) = Res.val ymin →
      F32.toInt (F32.mul (F32.ofInt frame.cols) d.xmax) = Res.val xmax →
      F32.toInt (F32.mul (F32.ofInt frame.rows) d.ymax) = Res.val ymax →
      F32.toInt d.spatialCoordinates.x = Res.val xi →
      F32.toInt d.spatialCoordinates.y = Res.val yi →
      F32.toInt d.spatialCoordinates.z = Res.val zi →
      self.labelMap_[d.label]? = some resolved →
      INT_MIN ≤ ymin - 5 → xmin + 3 ≤ INT_MAX → ymin + 45 ≤ INT_MAX →
      ∃ color label, self.drawDetection frame d = Res.val { frame with drawn := frame.drawn ++
          [DrawOp.rectangle ⟨xmax, ymax⟩ ⟨xmin, ymin⟩ color 1,
           DrawOp.putText label ⟨xmin, ymin - 5⟩ FONT_HERSHEY_TRIPLEX ⟨1, -1⟩ ⟨255, 255, 255⟩,
           DrawOp.putText ("X: " ++ toString xi ++ "mm") ⟨xmin + 3, ymin + 15⟩
             FONT_HERSHEY_TRIPLEX ⟨1, -1⟩ ⟨255, 255, 255⟩,
           DrawOp.putText ("Y: " ++ toString yi ++ "mm") ⟨xmin + 3, ymin + 30⟩
             FONT_HERSHEY_TRIPLEX ⟨1, -1⟩ ⟨255, 255, 255⟩,
           DrawOp.putText ("Z (Depth): " ++ toString zi ++ "mm") ⟨xmin + 3, ymin + 45⟩
             FONT_HERSHEY_TRIPLEX ⟨1, -1⟩ ⟨255, 255, 255⟩] }) := by
  constructor
  · intro frame' h
    obtain ⟨xmax, xmin, ymax, ymin, label, xi, yi, zi, hxmax, hxmin, hymax, hymin, -, hx, hy,
      hz, -, -, -, rfl⟩ := (drawDetection_eq_val_iff self frame d frame').mp h
    refine ⟨xmin, ymin, xmax, ymax, xi, yi, zi, _, _, hxmin, hymin, hxmax, hymax, hx, hy, hz,
      rfl, rfl, rfl, ?_, by decide, by decide⟩
    cases F32.lt d.spatialCoordinates.z (F32.ofInt 300) <;> simp
  · intro xmin ymin xmax ymax xi yi zi resolved hxmin hymin hxmax hymax hx hy hz hl h5 h3 h45
    exact ⟨_, _, (drawDetection_eq_val_iff self frame d _).mpr
      ⟨xmax, xmin, ymax, ymin, resolved, xi, yi, zi, hxmax, hxmin, hymax, hymin, hl, hx, hy,
        hz, h5, h3, h45, rfl⟩⟩

/-- Witness of C9 on the blank 640 by 480 frame, with a fractional depth and
negative `x` and `y`. -/
theorem drawDetection_five_calls_witness :
    ∃ xmin ymin xmax ymax xi yi zi color label,
      F32.toInt (F32.mul (F32.ofInt frame640x480.cols) detFractional.xmin) = Res.val xmin ∧
      F32.toInt (F32.mul (F32.ofInt frame640x480.rows) detFractional.ymin) = Res.val ymin ∧
      F32.toInt (F32.mul (F32.ofInt frame640x480.cols) detFractional.xmax) = Res.val xmax ∧
      F32.toInt (F32.mul (F32.ofInt frame640x480.rows) detFractional.ymax) = Res.val ymax ∧
      F32.toInt detFractional.spatialCoordinates.x = Res.val xi ∧
      F32.toInt detFractional.spatialCoordinates.y = Res.val yi ∧
      F32.toInt detFractional.spatialCoordinates.z = Res.val zi ∧
      frameFractional.cols = frame640x480.cols ∧ frameFractional.rows = frame640x480.rows ∧
      frameFractional.drawn = frame640x480.drawn ++
        [DrawOp.rectangle ⟨xmax, ymax⟩ ⟨xmin, ymin⟩ color 1,
         DrawOp.putText label ⟨xmin, ymin - 5⟩ FONT_HERSHEY_TRIPLEX ⟨1, -1⟩ ⟨255, 255, 255⟩,
         DrawOp.putText ("X: " ++ toString xi ++ "mm") ⟨xmin + 3, ymin + 15⟩
           FONT_HERSHEY_TRIPLEX ⟨1, -1⟩ ⟨255, 255, 255⟩,
         DrawOp.putText ("Y: " ++ toString yi ++ "mm") ⟨xmin + 3, ymin + 30⟩
           FONT_HERSHEY_TRIPLEX ⟨1, -1⟩ ⟨255, 255, 255⟩,
         DrawOp.putText ("Z (Depth): " ++ toString zi ++ "mm") ⟨xmin + 3, ymin + 45⟩
           FONT_HERSHEY_TRIPLEX ⟨1, -1⟩ ⟨255, 255, 255⟩] ∧
      (color = (⟨0, 0, 255⟩ : Scalar) ∨ color = (⟨0, 255, 0⟩ : Scalar)) ∧
      (⟨255, 255, 255⟩ : Scalar) ≠ ⟨0, 0, 255⟩ ∧ (⟨255, 255, 255⟩ : Scalar) ≠ ⟨0, 255, 0⟩ :=
  (drawDetection_five_calls nodePerson frame640x480 detFractional).1 frameFractional
    drawDetection_detFractional

/-- C10: on every run of `drawDetection` that completes, with `n` the depth converted
to `int` (the integer shown on the `Z (Depth)` line, the last call), the rectangle is
red with the label suffixed `" [TOO CLOSE]"` exactly when `n < 300`, and green with the
bare label exactly when `300 <= n`. -/
theorem drawDetection_depth_readout_agrees (self : DetectionDisplay) (frame : Mat)
    (d : SpatialImgDetection) (frame' : Mat)
    (h : self.drawDetection frame d = Res.val frame') :
    ∃ n resolved pt1 pt2 color text org lineX lineY zOrg,
      F32.toInt d.spatialCoordinates.z = Res.val n ∧
      tryCatch (vectorIndex self.labelMap_ d.label) (fun _ => Res.val (toString d.label))
        = Res.val resolved ∧
      frame'.drawn = frame.drawn ++
        [DrawOp.rectangle pt1 pt2 color 1,
         DrawOp.putText text org FONT_HERSHEY_TRIPLEX ⟨1, -1⟩ ⟨255, 255, 255⟩,
         lineX, lineY,
         DrawOp.putText ("Z (Depth): " ++ toString n ++ "mm") zOrg
           FONT_HERSHEY_TRIPLEX ⟨1, -1⟩ ⟨255, 255, 255⟩] ∧
      (F32.lt d.spatialCoordinates.z (F32.ofInt 300) = true ↔ n < 300) ∧
      (n < 300 ↔ color = ⟨0, 0, 255⟩ ∧ text = resolved ++ " [TOO CLOSE]") ∧
      (300 ≤ n ↔ color = ⟨0, 255, 0⟩ ∧ text = resolved) := by
  obtain ⟨xmax, xmin, ymax, ymin, label, xi, yi, zi, -, -, -, -, hl, -, -, hz, -, -, -, rfl⟩ :=
    (drawDetection_eq_val_iff self frame d frame').mp h
  have hiff := F32.lt_300_iff_toInt _ _ hz
  refine ⟨zi, label, _, _, _, _, _, _, _, _, hz, ?_, rfl, hiff, ?_, ?_⟩
  · rw [tryCatch_vectorIndex, vectorIndex_eq_val]
    exact hl
  · by_cases hn : zi < 300
    · simp [hiff.mpr hn, hn]
    · have hf : F32.lt d.spatialCoordinates.z (F32.ofInt 300) = false := by
        cases hb : F32.lt d.spatialCoordinates.z (F32.ofInt 300)
        · rfl
        · exact absurd (hiff.mp hb) hn
      simp [hf, hn]
  · by_cases hn : zi < 300
    · simp [hiff.mpr hn, hn]
    · have hf : F32.lt d.spatialCoordinates.z (F32.ofInt 300) = false := by
        cases hb : F32.lt d.spatialCoordinates.z (F32.ofInt 300)
        · rfl
        · exact absurd (hiff.mp hb) hn
      simp [hf, not_lt.mp hn]

/-- Witness of C10 at depth 299.5, shown as 299. -/
theorem drawDetection_depth_readout_agrees_witness :
    ∃ n resolved pt1 pt2 color text org lineX lineY zOrg,
      F32.toInt detFractional.spatialCoordinates.z = Res.val n ∧
      tryCatch (vectorIndex nodePerson.labelMap_ detFractional.label)
        (fun _ => Res.val (toString detFractional.label)) = Res.val resolved ∧
      frameFractional.drawn = frame640x480.drawn ++
        [DrawOp.rectangle pt1 pt2 color 1,
         DrawOp.putText text org FONT_HERSHEY_TRIPLEX ⟨1, -1⟩ ⟨255, 255, 255⟩,
         lineX, lineY,
         DrawOp.putText ("Z (Depth): " ++ toString n ++ "mm") zOrg
           FONT_HERSHEY_TRIPLEX ⟨1, -1⟩ ⟨255, 255, 255⟩] ∧
      (F32.lt detFractional.spatialCoordinates.z (F32.ofInt 300) = true ↔ n < 300) ∧
      (n < 300 ↔ color = ⟨0, 0, 255⟩ ∧ text = resolved ++ " [TOO CLOSE]") ∧
      (300 ≤ n ↔ color = ⟨0, 255, 0⟩ ∧ text = resolved) :=
  drawDetection_depth_readout_agrees nodePerson frame640x480 detFractional frameFractional
    drawDetection_detFractional

end ObjectDetector
